import Mathlib

/-!
Verification of the core of a DXF (AutoCAD drawing interchange) library.

The development shallowly embeds the three source modules:
* code_pair_value.rs — the caret escape codec, the unicode escape codec and
  the canonical float formatter;
* x_data.rs — the recursive XDATA codec (reader and writer over code pairs);
* drawing.rs — the top-level section reader, Drawing::load and the entity
  post-processor that folds ATTRIBUTE / VERTEX children into their parents.

Rust machine integers are modelled as Nat / Int with explicit bounds where
they matter.  `f64` values are never subject to arithmetic in the embedded
code: they are carried through the pair stream unchanged, so they are
modelled by the exact rational value of the (finite, dyadic) float.
Fallible code returns Except; the iterator of a reader is modelled as the
list of results it has yet to yield, and put_back is modelled by consing
the returned element back onto that list.
-/

/-- Uppercase hexadecimal digit for a nibble, as produced by the Rust
formatting specifiers X and 02X and 04X. -/
def hex_digit_char (n : Nat) : Char :=
  if n < 10 then Char.ofNat (48 + n) else Char.ofNat (55 + n)

/-- Value of one hexadecimal digit, accepting both cases, as accepted by
from_str_radix(_, 16); none on a non-digit. -/
def hex_val (c : Char) : Option Nat :=
  if 48 ≤ c.toNat ∧ c.toNat ≤ 57 then some (c.toNat - 48)
  else if 65 ≤ c.toNat ∧ c.toNat ≤ 70 then some (c.toNat - 55)
  else if 97 ≤ c.toNat ∧ c.toNat ≤ 102 then some (c.toNat - 87)
  else none

/-- Fold a list of hexadecimal digits into a number; none on a non-digit. -/
def parse_hex_digits : List Char → Nat → Option Nat
  | [], acc => some acc
  | c :: rest, acc =>
    match hex_val c with
    | some d => parse_hex_digits rest (acc * 16 + d)
    | none => none

/-- Modelled from the spec: u32::from_str_radix(s, 16) as used by handle
parsing (helper_functions.rs is not part of the sources).  Fails on an empty
string, on a non-digit, and on overflow past u32. -/
def parse_hex_u32 (s : String) : Option Nat :=
  match s.data with
  | [] => none
  | l =>
    match parse_hex_digits l 0 with
    | some n => if n < 2 ^ 32 then some n else none
    | none => none

/-- Decimal digit characters of a natural number, most significant first.
The fuel argument mirrors the classic digit-extraction loop and is always
given as n + 1, which is an upper bound on the number of digits. -/
def dec_digits_core : Nat → Nat → List Char → List Char
  | 0, _, acc => acc
  | fuel + 1, n, acc =>
    let acc2 := Char.ofNat (48 + n % 10) :: acc
    if n / 10 = 0 then acc2 else dec_digits_core fuel (n / 10) acc2

/-- Decimal rendering of a natural number ("0" for zero). -/
def dec_digits (n : Nat) : List Char := dec_digits_core (n + 1) n []

/-! ## Caret codec (escape_control_characters / un_escape_string) -/

/-- The match on c as u8 inside escape_control_characters: bytes 0x00..0x1F
map to the characters at-sign, A..Z, bracket, backslash, bracket, caret,
underscore by index, and 0x5E (the caret itself) maps to a space.  The
wildcard arm of the source is a panic, modelled as none. -/
def escape_byte (b : Nat) : Option Char :=
  if b ≤ 0x1F then some (Char.ofNat (0x40 + b))
  else if b = 0x5E then some ' '
  else none

/-- needs_escaping from escape_control_characters: the Rust code first
truncates the character with c as u8, i.e. reduces the code point mod 256. -/
def needs_escaping (c : Char) : Bool :=
  decide (c.toNat % 256 ≤ 0x1F) || decide (c.toNat % 256 = 0x5E)

/-- The for-loop of escape_control_characters, accumulating into result.
The panic arm propagates as none. -/
def escape_loop : List Char → List Char → Option (List Char)
  | [], result => some result
  | c :: rest, result =>
    if needs_escaping c then
      match escape_byte (c.toNat % 256) with
      | some m => escape_loop rest (result ++ ['^', m])
      | none => none
    else escape_loop rest (result ++ [c])

/-- escape_control_characters from code_pair_value.rs.  The source function
returns String and panics on the unreachable wildcard arm; the panic is
modelled as none. -/
def escape_control_characters (val : String) : Option String :=
  (escape_loop val.data []).map String.mk

/-- The reverse mapping inside un_escape_string: at-sign..underscore map back
to bytes 0x00..0x1F, a space maps back to 0x5E, and any other character is
kept (the source keeps c as u8, i.e. the code point mod 256). -/
def un_escape_byte (c : Char) : Nat :=
  if 0x40 ≤ c.toNat ∧ c.toNat ≤ 0x5F then c.toNat - 0x40
  else if c = ' ' then 0x5E
  else c.toNat % 256

/-- The character-consuming loop of un_escape_string with its do_escape
flag, accumulating into result. -/
def un_escape_loop : List Char → Bool → List Char → List Char
  | [], _, result => result
  | c :: rest, doEscape, result =>
    if c = '^' ∧ doEscape = false then un_escape_loop rest true result
    else if doEscape then
      un_escape_loop rest false (result ++ [Char.ofNat (un_escape_byte c)])
    else un_escape_loop rest false (result ++ [c])

/-- List-level body of CodePairValue::un_escape_string: scan for the first
caret; without one the input is returned unchanged, otherwise the prefix is
kept and the rest is run through the unescaping loop. -/
def un_escape_list (l : List Char) : List Char :=
  match l.findIdx? (fun c => c = '^') with
  | none => l
  | some first => un_escape_loop (l.drop first) false (l.take first)

/-- CodePairValue::un_escape_string from code_pair_value.rs. -/
def CodePairValue.un_escape_string (val : String) : String :=
  String.mk (un_escape_list val.data)

/-! ## Unicode codec (escape_unicode_to_ascii / un_escape_ascii_to_unicode) -/

/-- Modelled from the format specifier 04X on a char code point: uppercase
hexadecimal, zero padded to at least four digits (code points are below
0x110000, hence at most six digits). -/
def hex_04X (n : Nat) : List Char :=
  if n < 0x10000 then
    [hex_digit_char (n / 4096 % 16), hex_digit_char (n / 256 % 16),
     hex_digit_char (n / 16 % 16), hex_digit_char (n % 16)]
  else if n < 0x100000 then
    [hex_digit_char (n / 65536 % 16), hex_digit_char (n / 4096 % 16),
     hex_digit_char (n / 256 % 16), hex_digit_char (n / 16 % 16),
     hex_digit_char (n % 16)]
  else
    [hex_digit_char (n / 1048576 % 16), hex_digit_char (n / 65536 % 16),
     hex_digit_char (n / 4096 % 16), hex_digit_char (n / 256 % 16),
     hex_digit_char (n / 16 % 16), hex_digit_char (n % 16)]

/-- The for-loop of escape_unicode_to_ascii: code points at or above 128 are
emitted as a backslash, U, plus and the padded uppercase hex code. -/
def uni_escape_loop : List Char → List Char → List Char
  | [], result => result
  | c :: rest, result =>
    if 128 ≤ c.toNat then
      uni_escape_loop rest (result ++ '\\' :: 'U' :: '+' :: hex_04X c.toNat)
    else uni_escape_loop rest (result ++ [c])

/-- escape_unicode_to_ascii from code_pair_value.rs. -/
def escape_unicode_to_ascii (val : String) : String :=
  String.mk (uni_escape_loop val.data [])

/-- Decoding of the four characters after a backslash-U-plus prefix:
hexadecimal parse, then char::from_u32; invalid hex, u32 overflow and
non-scalar code points all yield a question mark. -/
def decode_uni_seq (code : List Char) : Char :=
  match parse_hex_digits code 0 with
  | some n =>
    if n < 2 ^ 32 then
      if n.isValidChar then Char.ofNat n else '?'
    else '?'
  | none => '?'

/-- The indexed for-loop of un_escape_ascii_to_unicode, carrying the
in_escape_sequence flag, the sequence start index and the seq buffer.  A
pending unfinished sequence is dropped when the input ends, as in the
source. -/
def un_escape_ascii_loop :
    List Char → Nat → Bool → Nat → List Char → List Char → List Char
  | [], _, _, _, _, result => result
  | c :: rest, i, inEscape, seqStart, seq, result =>
    if inEscape = false then
      if c = '\\' then un_escape_ascii_loop rest (i + 1) true i [c] result
      else un_escape_ascii_loop rest (i + 1) false seqStart seq (result ++ [c])
    else
      let seq2 := seq ++ [c]
      if i = seqStart + 6 then
        if seq2.take 3 = ['\\', 'U', '+'] then
          un_escape_ascii_loop rest (i + 1) false seqStart []
            (result ++ [decode_uni_seq (seq2.drop 3)])
        else un_escape_ascii_loop rest (i + 1) false seqStart [] (result ++ seq2)
      else un_escape_ascii_loop rest (i + 1) true seqStart seq2 result

/-- un_escape_ascii_to_unicode from code_pair_value.rs. -/
def un_escape_ascii_to_unicode (val : String) : String :=
  String.mk (un_escape_ascii_loop val.data 0 false 0 [] [])

/-! ## Float formatter (format_f64) -/

/-- A finite f64 value, represented exactly: the value is num / 2 ^ den_exp.
Every finite IEEE 754 binary64 number is such a dyadic rational.  The
embedded code performs no arithmetic on doubles — they are carried through
code pairs unchanged — so this exact representation is faithful. -/
structure F64 where
  num : Int
  den_exp : Nat
deriving DecidableEq, Repr

/-- Numerator of the magnitude of a dyadic value scaled by 10 ^ 12 and
rounded to the nearest integer, ties to even — the correct rounding the
Rust fixed-precision float formatter applies to the exact value. -/
def scaled_magnitude_12 (v : F64) : Nat :=
  let p := v.num.natAbs * 10 ^ 12
  let d := 2 ^ v.den_exp
  let q := p / d
  let r := p % d
  if 2 * r < d then q
  else if d < 2 * r then q + 1
  else if q % 2 = 0 then q else q + 1

/-- Modelled from the spec: the format specifier .12 renders the exact value
of a finite f64 with exactly twelve fractional digits, correctly rounded. -/
def render_fixed_12 (v : F64) : List Char :=
  let scaled := scaled_magnitude_12 v
  let ip := scaled / 10 ^ 12
  let fp := scaled % 10 ^ 12
  let fracDigits := dec_digits fp
  (if v.num < 0 then ['-'] else []) ++ dec_digits ip ++
    '.' :: (List.replicate (12 - fracDigits.length) '0' ++ fracDigits)

/-- The while-loop of format_f64 that pops trailing zero characters. -/
def trim_trailing_zeros (l : List Char) : List Char :=
  (l.reverse.dropWhile (fun c => c = '0')).reverse

/-- format_f64 from code_pair_value.rs: render with twelve fractional
digits, trim trailing zeros, and restore a single zero when the result
would end with the decimal point. -/
def format_f64 (v : F64) : String :=
  let val := render_fixed_12 v
  let val := trim_trailing_zeros val
  let val := if val.getLast? = some '.' then val ++ ['0'] else val
  String.mk val


/-! ## Code pairs, errors and typed asserters -/

/-- CodePairValue from code_pair_value.rs: the tagged value of a code pair.
Machine integers are modelled as Int; doubles carry their exact dyadic
value. -/
inductive CodePairValue
  | Boolean (b : Int)
  | Integer (i : Int)
  | Long (l : Int)
  | Short (s : Int)
  | Double (d : F64)
  | Str (s : String)
deriving DecidableEq, Repr

/-- Modelled from the spec: a code pair is a (group code, value, source
offset) triple; the struct itself lives outside the given sources. -/
structure CodePair where
  code : Int
  value : CodePairValue
  offset : Nat
deriving DecidableEq, Repr

/-- Modelled from the spec: the closed error sum type of the library. -/
inductive DxfError
  | UnexpectedCodePair (pair : CodePair) (msg : String)
  | UnexpectedCode (code : Int) (offset : Nat)
  | UnexpectedEndOfInput
  | WrongValueType (code : Int) (offset : Nat)
  | MalformedHandle
  | MalformedHexData (offset : Nat)
  | Io (tag : Nat)
  | UnsupportedVersion
deriving DecidableEq, Repr

/-- DxfResult from the library. -/
abbrev DxfResult (α : Type) := Except DxfError α

/-- A pair iterator is modelled by the list of results it has yet to yield;
put_back conses the item back on. -/
abbrev PairStream := List (DxfResult CodePair)

/-- CodePair::new_str / CodePair::new_string (writer-side pairs carry
offset 0). -/
def CodePair.new_string (code : Int) (s : String) : CodePair :=
  { code := code, value := CodePairValue.Str s, offset := 0 }

/-- CodePair::new_str, which differs from new_string only in the borrow. -/
def CodePair.new_str (code : Int) (s : String) : CodePair :=
  CodePair.new_string code s

/-- CodePair::new_f64. -/
def CodePair.new_f64 (code : Int) (d : F64) : CodePair :=
  { code := code, value := CodePairValue.Double d, offset := 0 }

/-- CodePair::new_i16. -/
def CodePair.new_i16 (code : Int) (i : Int) : CodePair :=
  { code := code, value := CodePairValue.Short i, offset := 0 }

/-- CodePair::new_i32. -/
def CodePair.new_i32 (code : Int) (i : Int) : CodePair :=
  { code := code, value := CodePairValue.Integer i, offset := 0 }

/-- Modelled from the spec: the typed asserter for strings returns the
contained value when the variant matches, else fails WrongValueType. -/
def CodePair.assert_string (p : CodePair) : DxfResult String :=
  match p.value with
  | CodePairValue.Str s => Except.ok s
  | _ => Except.error (DxfError.WrongValueType p.code p.offset)

/-- Modelled from the spec: the typed asserter for doubles. -/
def CodePair.assert_f64 (p : CodePair) : DxfResult F64 :=
  match p.value with
  | CodePairValue.Double d => Except.ok d
  | _ => Except.error (DxfError.WrongValueType p.code p.offset)

/-- Modelled from the spec: the typed asserter for i16 values. -/
def CodePair.assert_i16 (p : CodePair) : DxfResult Int :=
  match p.value with
  | CodePairValue.Short s => Except.ok s
  | _ => Except.error (DxfError.WrongValueType p.code p.offset)

/-- Modelled from the spec: the typed asserter for i32 values. -/
def CodePair.assert_i32 (p : CodePair) : DxfResult Int :=
  match p.value with
  | CodePairValue.Integer i => Except.ok i
  | _ => Except.error (DxfError.WrongValueType p.code p.offset)

/-- Hexadecimal digit characters of a natural number, most significant
first, minimal width, as produced by the format specifier X on a number
already rendered with hex_digit_char (uppercase).  Fuel mirrors the digit
extraction loop and n + 1 always suffices. -/
def hex_digits_core : Nat → Nat → List Char → List Char
  | 0, _, acc => acc
  | fuel + 1, n, acc =>
    let acc2 := hex_digit_char (n % 16) :: acc
    if n / 16 = 0 then acc2 else hex_digits_core fuel (n / 16) acc2

/-- Minimal-width uppercase hexadecimal rendering ("0" for zero). -/
def hex_digits (n : Nat) : List Char := hex_digits_core (n + 1) n []

/-- Modelled from the spec: the as_handle helper renders a u32 handle as
hexadecimal text (helper_functions.rs is not part of the sources). -/
def as_handle (h : Nat) : String := String.mk (hex_digits h)

/-- Modelled from the spec: CodePair::as_handle parses hexadecimal text into
an unsigned 32-bit integer; invalid hex fails with MalformedHandle. -/
def CodePair.as_handle (p : CodePair) : DxfResult Nat :=
  match CodePair.assert_string p with
  | Except.error e => Except.error e
  | Except.ok s =>
    match parse_hex_u32 s with
    | some n => Except.ok n
    | none => Except.error DxfError.MalformedHandle

/-- The two hex digit characters of a byte, as the format specifier 02X
renders a u8. -/
def byte_hex_chars (b : Nat) : List Char :=
  [hex_digit_char (b / 16 % 16), hex_digit_char (b % 16)]

/-- Byte-pair decoding loop for parse_hex_string. -/
def parse_hex_byte_pairs : List Char → Option (List Nat)
  | [] => some []
  | c1 :: c2 :: rest =>
    match hex_val c1, hex_val c2 with
    | some d1, some d2 =>
      match parse_hex_byte_pairs rest with
      | some bs => some ((d1 * 16 + d2) :: bs)
      | none => none
    | _, _ => none
  | [_] => none

/-- Modelled from the spec: the parse_hex_string helper hex-decodes a string
into bytes (an odd-length string gets an implied leading zero);  a lexical
failure yields none, reported by the caller as MalformedHexData. -/
def parse_hex_string (s : String) : Option (List Nat) :=
  let l := s.data
  let l := if l.length % 2 = 1 then '0' :: l else l
  parse_hex_byte_pairs l

/-! ## XDATA codec (x_data.rs) -/

/-- Modelled from the spec: a 3D point (the Point struct is outside the
given sources). -/
structure Point where
  x : F64
  y : F64
  z : F64
deriving DecidableEq, Repr

/-- Modelled from the spec: a 3D vector (outside the given sources). -/
structure Vec3 where
  x : F64
  y : F64
  z : F64
deriving DecidableEq, Repr

@[simp] def XDATA_APPLICATIONNAME : Int := 1001
@[simp] def XDATA_STRING : Int := 1000
@[simp] def XDATA_CONTROLGROUP : Int := 1002
@[simp] def XDATA_LAYER : Int := 1003
@[simp] def XDATA_BINARYDATA : Int := 1004
@[simp] def XDATA_HANDLE : Int := 1005
@[simp] def XDATA_THREEREALS : Int := 1010
@[simp] def XDATA_WORLDSPACEPOSITION : Int := 1011
@[simp] def XDATA_WORLDSPACEDISPLACEMENT : Int := 1012
@[simp] def XDATA_WORLDDIRECTION : Int := 1013
@[simp] def XDATA_REAL : Int := 1040
@[simp] def XDATA_DISTANCE : Int := 1041
@[simp] def XDATA_SCALEFACTOR : Int := 1042
@[simp] def XDATA_INTEGER : Int := 1070
@[simp] def XDATA_LONG : Int := 1071

/-- XDataItem from x_data.rs; ControlGroup is the only recursive variant. -/
inductive XDataItem
  | Str (s : String)
  | ControlGroup (items : List XDataItem)
  | LayerName (s : String)
  | BinaryData (data : List Nat)
  | Handle (h : Nat)
  | ThreeReals (x y z : F64)
  | WorldSpacePosition (p : Point)
  | WorldSpaceDisplacement (p : Point)
  | WorldDirection (v : Vec3)
  | Real (f : F64)
  | Distance (f : F64)
  | ScaleFactor (f : F64)
  | Integer (i : Int)
  | Long (i : Int)

/-- XData from x_data.rs: an application name with its items. -/
structure XData where
  application_name : String
  items : List XDataItem

/-- Modelled from the spec: the AutoCAD version enum, restricted to the
versions the specification names; ordering is declaration order. -/
inductive AcadVersion
  | R12
  | R13
  | R14
  | R2000
  | R2004
deriving DecidableEq, Repr

/-- Declaration-order rank of a version, giving the derived Ord of the Rust
enum. -/
def AcadVersion.rank : AcadVersion → Nat
  | .R12 => 0
  | .R13 => 1
  | .R14 => 2
  | .R2000 => 3
  | .R2004 => 4

mutual

/-- XDataItem::write from x_data.rs, emitting the code pairs this item
writes, in order. -/
def XDataItem.write : XDataItem → List CodePair
  | .Str s => [CodePair.new_string XDATA_STRING s]
  | .ControlGroup items =>
    CodePair.new_str XDATA_CONTROLGROUP "\x7b" ::
      (XDataItem.write_list items ++ [CodePair.new_str XDATA_CONTROLGROUP "\x7d"])
  | .LayerName l => [CodePair.new_string XDATA_LAYER l]
  | .BinaryData data =>
    [CodePair.new_string XDATA_BINARYDATA (String.mk (data.flatMap byte_hex_chars))]
  | .Handle h => [CodePair.new_string XDATA_HANDLE (as_handle h)]
  | .ThreeReals x y z =>
    [CodePair.new_f64 XDATA_THREEREALS x, CodePair.new_f64 XDATA_THREEREALS y,
     CodePair.new_f64 XDATA_THREEREALS z]
  | .WorldSpacePosition p =>
    [CodePair.new_f64 XDATA_WORLDSPACEPOSITION p.x,
     CodePair.new_f64 XDATA_WORLDSPACEPOSITION p.y,
     CodePair.new_f64 XDATA_WORLDSPACEPOSITION p.z]
  | .WorldSpaceDisplacement p =>
    [CodePair.new_f64 XDATA_WORLDSPACEDISPLACEMENT p.x,
     CodePair.new_f64 XDATA_WORLDSPACEDISPLACEMENT p.y,
     CodePair.new_f64 XDATA_WORLDSPACEDISPLACEMENT p.z]
  | .WorldDirection v =>
    [CodePair.new_f64 XDATA_WORLDDIRECTION v.x,
     CodePair.new_f64 XDATA_WORLDDIRECTION v.y,
     CodePair.new_f64 XDATA_WORLDDIRECTION v.z]
  | .Real f => [CodePair.new_f64 XDATA_REAL f]
  | .Distance f => [CodePair.new_f64 XDATA_DISTANCE f]
  | .ScaleFactor f => [CodePair.new_f64 XDATA_SCALEFACTOR f]
  | .Integer i => [CodePair.new_i16 XDATA_INTEGER i]
  | .Long i => [CodePair.new_i32 XDATA_LONG i]

/-- The item-by-item writer loop shared by XData::write and the
ControlGroup arm. -/
def XDataItem.write_list : List XDataItem → List CodePair
  | [] => []
  | item :: rest => XDataItem.write item ++ XDataItem.write_list rest

end

/-- XData::write from x_data.rs: nothing is emitted below R2000, otherwise
the 1001/application-name pair followed by every item. -/
def XData.write (version : AcadVersion) (xd : XData) : List CodePair :=
  if AcadVersion.R2000.rank ≤ version.rank then
    CodePair.new_string XDATA_APPLICATIONNAME xd.application_name ::
      XDataItem.write_list xd.items
  else []

/-- XDataItem::read_double from x_data.rs: one more pair bearing the same
group code. -/
def XDataItem.read_double (iter : PairStream) (expected_code : Int) :
    DxfResult (F64 × PairStream) :=
  match iter with
  | Except.ok pair :: rest =>
    if pair.code = expected_code then
      match CodePair.assert_f64 pair with
      | Except.ok d => Except.ok (d, rest)
      | Except.error e => Except.error e
    else Except.error (DxfError.UnexpectedCode pair.code pair.offset)
  | Except.error e :: _ => Except.error e
  | [] => Except.error DxfError.UnexpectedEndOfInput

/-- The three mutually recursive reading loops of x_data.rs, at one fuel
level: XDataItem::read_item on a dispatched pair, the ControlGroup item
loop, and the XData::read_item accumulation loop.  Every recursive call
goes through the previous fuel level. -/
structure XDataReaders where
  read_item : CodePair → PairStream → Option (DxfResult (XDataItem × PairStream))
  read_group_items : PairStream → Option (DxfResult (List XDataItem × PairStream))
  read_items : PairStream → Option (DxfResult (List XDataItem × PairStream))

/-- One step of the x_data.rs readers, with recursive positions taken from
prev.  none marks fuel exhaustion, never the value of the embedded code. -/
def xDataStep (prev : XDataReaders) : XDataReaders where
  read_item := fun pair iter =>
    if pair.code = XDATA_STRING then
      match CodePair.assert_string pair with
      | Except.ok s => some (Except.ok (XDataItem.Str s, iter))
      | Except.error e => some (Except.error e)
    else if pair.code = XDATA_CONTROLGROUP then
      match prev.read_group_items iter with
      | some (Except.ok (items, rest)) =>
        some (Except.ok (XDataItem.ControlGroup items, rest))
      | some (Except.error e) => some (Except.error e)
      | none => none
    else if pair.code = XDATA_LAYER then
      match CodePair.assert_string pair with
      | Except.ok s => some (Except.ok (XDataItem.LayerName s, iter))
      | Except.error e => some (Except.error e)
    else if pair.code = XDATA_BINARYDATA then
      match CodePair.assert_string pair with
      | Except.ok s =>
        match parse_hex_string s with
        | some data => some (Except.ok (XDataItem.BinaryData data, iter))
        | none => some (Except.error (DxfError.MalformedHexData pair.offset))
      | Except.error e => some (Except.error e)
    else if pair.code = XDATA_HANDLE then
      match CodePair.as_handle pair with
      | Except.ok h => some (Except.ok (XDataItem.Handle h, iter))
      | Except.error e => some (Except.error e)
    else if pair.code = XDATA_THREEREALS then
      match CodePair.assert_f64 pair with
      | Except.ok x =>
        match XDataItem.read_double iter pair.code with
        | Except.ok (y, it2) =>
          match XDataItem.read_double it2 pair.code with
          | Except.ok (z, it3) => some (Except.ok (XDataItem.ThreeReals x y z, it3))
          | Except.error e => some (Except.error e)
        | Except.error e => some (Except.error e)
      | Except.error e => some (Except.error e)
    else if pair.code = XDATA_WORLDSPACEDISPLACEMENT then
      match CodePair.assert_f64 pair with
      | Except.ok x =>
        match XDataItem.read_double iter pair.code with
        | Except.ok (y, it2) =>
          match XDataItem.read_double it2 pair.code with
          | Except.ok (z, it3) =>
            some (Except.ok (XDataItem.WorldSpaceDisplacement ⟨x, y, z⟩, it3))
          | Except.error e => some (Except.error e)
        | Except.error e => some (Except.error e)
      | Except.error e => some (Except.error e)
    else if pair.code = XDATA_WORLDSPACEPOSITION then
      match CodePair.assert_f64 pair with
      | Except.ok x =>
        match XDataItem.read_double iter pair.code with
        | Except.ok (y, it2) =>
          match XDataItem.read_double it2 pair.code with
          | Except.ok (z, it3) =>
            some (Except.ok (XDataItem.WorldSpacePosition ⟨x, y, z⟩, it3))
          | Except.error e => some (Except.error e)
        | Except.error e => some (Except.error e)
      | Except.error e => some (Except.error e)
    else if pair.code = XDATA_WORLDDIRECTION then
      match CodePair.assert_f64 pair with
      | Except.ok x =>
        match XDataItem.read_double iter pair.code with
        | Except.ok (y, it2) =>
          match XDataItem.read_double it2 pair.code with
          | Except.ok (z, it3) =>
            some (Except.ok (XDataItem.WorldDirection ⟨x, y, z⟩, it3))
          | Except.error e => some (Except.error e)
        | Except.error e => some (Except.error e)
      | Except.error e => some (Except.error e)
    else if pair.code = XDATA_REAL then
      match CodePair.assert_f64 pair with
      | Except.ok f => some (Except.ok (XDataItem.Real f, iter))
      | Except.error e => some (Except.error e)
    else if pair.code = XDATA_DISTANCE then
      match CodePair.assert_f64 pair with
      | Except.ok f => some (Except.ok (XDataItem.Distance f, iter))
      | Except.error e => some (Except.error e)
    else if pair.code = XDATA_SCALEFACTOR then
      match CodePair.assert_f64 pair with
      | Except.ok f => some (Except.ok (XDataItem.ScaleFactor f, iter))
      | Except.error e => some (Except.error e)
    else if pair.code = XDATA_INTEGER then
      match CodePair.assert_i16 pair with
      | Except.ok i => some (Except.ok (XDataItem.Integer i, iter))
      | Except.error e => some (Except.error e)
    else if pair.code = XDATA_LONG then
      match CodePair.assert_i32 pair with
      | Except.ok i => some (Except.ok (XDataItem.Long i, iter))
      | Except.error e => some (Except.error e)
    else some (Except.error (DxfError.UnexpectedCode pair.code pair.offset))
  read_group_items := fun iter =>
    match iter with
    | [] => some (Except.error DxfError.UnexpectedEndOfInput)
    | Except.error e :: _ => some (Except.error e)
    | Except.ok pair :: rest =>
      if pair.code < XDATA_STRING then
        some (Except.error (DxfError.UnexpectedCodePair pair "expected XDATA item"))
      else if pair.code = XDATA_CONTROLGROUP then
        match CodePair.assert_string pair with
        | Except.error e => some (Except.error e)
        | Except.ok s =>
          if s = "\x7d" then some (Except.ok ([], rest))
          else
            match prev.read_item pair rest with
            | some (Except.ok (item, rest2)) =>
              match prev.read_group_items rest2 with
              | some (Except.ok (items, rest3)) => some (Except.ok (item :: items, rest3))
              | some (Except.error e) => some (Except.error e)
              | none => none
            | some (Except.error e) => some (Except.error e)
            | none => none
      else
        match prev.read_item pair rest with
        | some (Except.ok (item, rest2)) =>
          match prev.read_group_items rest2 with
          | some (Except.ok (items, rest3)) => some (Except.ok (item :: items, rest3))
          | some (Except.error e) => some (Except.error e)
          | none => none
        | some (Except.error e) => some (Except.error e)
        | none => none
  read_items := fun iter =>
    match iter with
    | [] => some (Except.ok ([], []))
    | Except.error e :: _ => some (Except.error e)
    | Except.ok pair :: rest =>
      if pair.code = 0 then some (Except.ok ([], Except.ok pair :: rest))
      else if pair.code = XDATA_APPLICATIONNAME ∨ pair.code < XDATA_STRING then
        some (Except.ok ([], rest))
      else
        match prev.read_item pair rest with
        | some (Except.ok (item, rest2)) =>
          match prev.read_items rest2 with
          | some (Except.ok (items, rest3)) => some (Except.ok (item :: items, rest3))
          | some (Except.error e) => some (Except.error e)
          | none => none
        | some (Except.error e) => some (Except.error e)
        | none => none

/-- The x_data.rs readers with a given amount of fuel; fuel only limits
recursion depth and a sufficient amount always exists (it is bounded by the
structure being read). -/
def xDataReadersAt : Nat → XDataReaders
  | 0 =>
    { read_item := fun _ _ => none
      read_group_items := fun _ => none
      read_items := fun _ => none }
  | n + 1 => xDataStep (xDataReadersAt n)

/-- XData::read_item from x_data.rs: the caller has consumed the
1001/application-name pair and passes the name; the loop accumulates the
items.  One step of the loop consumes one fuel unit. -/
def XData.read_item (fuel : Nat) (application_name : String) (iter : PairStream) :
    Option (DxfResult (XData × PairStream)) :=
  match (xDataReadersAt fuel).read_items iter with
  | some (Except.ok (items, rest)) =>
    some (Except.ok ({ application_name := application_name, items := items }, rest))
  | some (Except.error e) => some (Except.error e)
  | none => none


mutual

/-- The values an XDataItem can take when produced by the reader over a
well-formed stream: binary data is bytes, handles fit in u32, integers fit
their machine width.  This delimits the domain of the round-trip law. -/
def XDataItem.producible : XDataItem → Bool
  | .BinaryData data => data.all (fun b => decide (b < 256))
  | .Handle h => decide (h < 2 ^ 32)
  | .Integer i => decide (-32768 ≤ i) && decide (i < 32768)
  | .Long i => decide (-2147483648 ≤ i) && decide (i < 2147483648)
  | .ControlGroup items => XDataItem.producible_list items
  | _ => true

/-- producible over a list of items. -/
def XDataItem.producible_list : List XDataItem → Bool
  | [] => true
  | item :: rest => XDataItem.producible item && XDataItem.producible_list rest

end

/-! ## Drawing, section reader and load (drawing.rs) -/

/-- Modelled from the spec: the drawing header; only the fields the core
consults (version and the handle policy flag) are represented.  Header::new
gives the defaults. -/
structure Header where
  version : AcadVersion
  handles_enabled : Bool
deriving DecidableEq, Repr

/-- Header::new. -/
def Header.new : Header := { version := AcadVersion.R12, handles_enabled := false }

/-- Modelled from the spec: table record types are external to the given
sources; each is represented by an opaque tag. -/
structure AppId where
  id : Nat
deriving DecidableEq, Repr

/-- Modelled from the spec: an external block record. -/
structure BlockRecord where
  id : Nat
deriving DecidableEq, Repr

/-- Modelled from the spec: an external dimension style. -/
structure DimStyle where
  id : Nat
deriving DecidableEq, Repr

/-- Modelled from the spec: an external layer. -/
structure Layer where
  id : Nat
deriving DecidableEq, Repr

/-- Modelled from the spec: an external line type. -/
structure LineType where
  id : Nat
deriving DecidableEq, Repr

/-- Modelled from the spec: an external visual style. -/
structure Style where
  id : Nat
deriving DecidableEq, Repr

/-- Modelled from the spec: an external user coordinate system. -/
structure Ucs where
  id : Nat
deriving DecidableEq, Repr

/-- Modelled from the spec: an external view. -/
structure View where
  id : Nat
deriving DecidableEq, Repr

/-- Modelled from the spec: an external view port. -/
structure ViewPort where
  id : Nat
deriving DecidableEq, Repr

/-- Modelled from the spec: the common fields of an entity (18 fields in the
source, external to the given sources), represented opaquely. -/
structure EntityCommon where
  id : Nat
deriving DecidableEq, Repr

/-- Modelled from the spec: an ATTRIB entity (external catalog), opaque. -/
structure AttributeEnt where
  id : Nat
deriving DecidableEq, Repr

/-- Modelled from the spec: a VERTEX entity (external catalog), opaque. -/
structure VertexEnt where
  id : Nat
deriving DecidableEq, Repr

/-- Modelled from the spec: a SEQEND entity (external catalog), opaque. -/
structure SeqendEnt where
  id : Nat
deriving DecidableEq, Repr

/-- Modelled from the spec: an INSERT entity has a has_attributes flag and
an attributes sub-sequence; its other fields are opaque. -/
structure InsertEnt where
  has_attributes : Bool
  attributes : List AttributeEnt
  extra : Nat
deriving DecidableEq, Repr

/-- Modelled from the spec: a POLYLINE entity has a vertices sub-sequence;
its other fields are opaque. -/
structure PolylineEnt where
  vertices : List VertexEnt
  extra : Nat
deriving DecidableEq, Repr

/-- Modelled from the spec: the specific part of an entity; the many leaf
kinds of the external catalog are collapsed into Other. -/
inductive EntityType
  | Insert (ins : InsertEnt)
  | Polyline (poly : PolylineEnt)
  | Attribute (att : AttributeEnt)
  | Vertex (v : VertexEnt)
  | Seqend (s : SeqendEnt)
  | Other (kind : Nat)
deriving DecidableEq, Repr

/-- Modelled from the spec: an entity is common fields plus a specific
variant. -/
structure Entity where
  common : EntityCommon
  specific : EntityType
deriving DecidableEq, Repr

/-- Drawing from drawing.rs: the aggregate root. -/
structure Drawing where
  header : Header
  entities : List Entity
  app_ids : List AppId
  block_records : List BlockRecord
  dim_styles : List DimStyle
  layers : List Layer
  line_types : List LineType
  styles : List Style
  ucs : List Ucs
  views : List View
  view_ports : List ViewPort
deriving DecidableEq, Repr

/-- Drawing::new from drawing.rs. -/
def Drawing.new : Drawing :=
  { header := Header.new
    entities := []
    app_ids := []
    block_records := []
    dim_styles := []
    layers := []
    line_types := []
    styles := []
    ucs := []
    views := []
    view_ports := [] }

/-- CodePairValue::assert_string of the 2016-era API used by drawing.rs: it
returns the string directly and panics on another variant.  Modelled from
the spec; the panic arm is modelled as the empty string and is never
reached by the verified scenarios. -/
def CodePairValue.assert_string : CodePairValue → String
  | CodePairValue.Str s => s
  | _ => ""

/-- Drawing::swallow_section from drawing.rs: discard pairs until a
0/ENDSEC is seen, put it back; end of stream simply stops. -/
def Drawing.swallow_section : PairStream → DxfResult PairStream
  | [] => Except.ok []
  | Except.error e :: _ => Except.error e
  | Except.ok pair :: rest =>
    if pair.code = 0 ∧ pair.value.assert_string = "ENDSEC" then
      Except.ok (Except.ok pair :: rest)
    else Drawing.swallow_section rest

/-- Drawing::read_sections from drawing.rs.  The HEADER, ENTITIES and
TABLES bodies are delegated to external sub-readers (header.rs, the entity
catalog and the table catalog are not part of the given sources), so the
three delegates are parameters; every theorem below holds for all of them.
One loop iteration consumes one unit of fuel; none marks fuel exhaustion
and is never the value of the embedded code. -/
def Drawing.read_sections
    (read_header : PairStream → Option (DxfResult (Header × PairStream)))
    (read_entities_section : Drawing → PairStream → Option (DxfResult (Drawing × PairStream)))
    (read_tables_section : Drawing → PairStream → Option (DxfResult (Drawing × PairStream))) :
    Nat → Drawing → PairStream → Option (DxfResult (Drawing × PairStream))
  | 0, _, _ => none
  | fuel + 1, drawing, iter =>
    match iter with
    | [] => some (Except.ok (drawing, []))
    | Except.error e :: _ => some (Except.error e)
    | Except.ok pair :: rest =>
      if pair.code = 0 then
        if pair.value.assert_string = "EOF" then
          some (Except.ok (drawing, Except.ok pair :: rest))
        else if pair.value.assert_string = "SECTION" then
          match rest with
          | [] => some (Except.error DxfError.UnexpectedEndOfInput)
          | Except.error e :: _ => some (Except.error e)
          | Except.ok pair2 :: rest2 =>
            match pair2.code, pair2.value with
            | 2, CodePairValue.Str s =>
              let after : Option (DxfResult (Drawing × PairStream)) :=
                if s = "HEADER" then
                  match read_header rest2 with
                  | some (Except.ok (h, it)) =>
                    some (Except.ok ({ drawing with header := h }, it))
                  | some (Except.error e) => some (Except.error e)
                  | none => none
                else if s = "ENTITIES" then read_entities_section drawing rest2
                else if s = "TABLES" then read_tables_section drawing rest2
                else
                  match Drawing.swallow_section rest2 with
                  | Except.ok it => some (Except.ok (drawing, it))
                  | Except.error e => some (Except.error e)
              match after with
              | some (Except.ok (drawing2, it2)) =>
                match it2 with
                | Except.ok p3 :: rest3 =>
                  if p3.code = 0 ∧ p3.value = CodePairValue.Str "ENDSEC" then
                    Drawing.read_sections read_header read_entities_section
                      read_tables_section fuel drawing2 rest3
                  else some (Except.error (DxfError.UnexpectedCodePair p3 "expected 0/ENDSEC"))
                | Except.error e :: _ => some (Except.error e)
                | [] => some (Except.error DxfError.UnexpectedEndOfInput)
              | some (Except.error e) => some (Except.error e)
              | none => none
            | _, _ =>
              some (Except.error (DxfError.UnexpectedCodePair pair2 "expected 0/<section-name>"))
        else
          some (Except.error (DxfError.UnexpectedCodePair pair "expected 0/SECTION"))
      else
        some (Except.error (DxfError.UnexpectedCodePair pair "expected 0/SECTION or 0/EOF"))

/-- Drawing::load from drawing.rs: read the sections into a fresh drawing,
then require the next pair, if any, to be 0/EOF; end of stream is also
accepted. -/
def Drawing.load
    (read_header : PairStream → Option (DxfResult (Header × PairStream)))
    (read_entities_section : Drawing → PairStream → Option (DxfResult (Drawing × PairStream)))
    (read_tables_section : Drawing → PairStream → Option (DxfResult (Drawing × PairStream)))
    (fuel : Nat) (iter : PairStream) : Option (DxfResult Drawing) :=
  match Drawing.read_sections read_header read_entities_section read_tables_section
      fuel Drawing.new iter with
  | some (Except.ok (drawing, iter2)) =>
    match iter2 with
    | Except.ok pair :: _ =>
      if pair.code = 0 ∧ pair.value = CodePairValue.Str "EOF" then
        some (Except.ok drawing)
      else some (Except.error (DxfError.UnexpectedCodePair pair "expected 0/EOF"))
    | Except.error e :: _ => some (Except.error e)
    | [] => some (Except.ok drawing)
  | some (Except.error e) => some (Except.error e)
  | none => none

/-! ## Entity post-processor (Drawing::read_entities) -/

/-- The ATTRIBUTE-gathering inner loop of Drawing::read_entities: consume
successive Attribute entities, and put the first non-Attribute back. -/
def Drawing.gather_attributes : List Entity → List AttributeEnt × List Entity
  | [] => ([], [])
  | e :: rest =>
    match e.specific with
    | EntityType.Attribute att =>
      let ga := Drawing.gather_attributes rest
      (att :: ga.1, ga.2)
    | _ => ([], e :: rest)

/-- The VERTEX-gathering inner loop of Drawing::read_entities. -/
def Drawing.gather_vertices : List Entity → List VertexEnt × List Entity
  | [] => ([], [])
  | e :: rest =>
    match e.specific with
    | EntityType.Vertex v =>
      let gv := Drawing.gather_vertices rest
      (v :: gv.1, gv.2)
    | _ => ([], e :: rest)

/-- Drawing::swallow_seqend from drawing.rs: consume one Seqend if it is
next, otherwise put the entity back. -/
def Drawing.swallow_seqend : List Entity → List Entity
  | [] => []
  | e :: rest =>
    match e.specific with
    | EntityType.Seqend _ => rest
    | _ => e :: rest

theorem gather_attributes_length_le (l : List Entity) :
    (Drawing.gather_attributes l).2.length ≤ l.length := by
  induction l with
  | nil => simp [Drawing.gather_attributes]
  | cons e rest ih =>
    simp only [Drawing.gather_attributes]
    cases e.specific <;> simp <;> omega

theorem gather_vertices_length_le (l : List Entity) :
    (Drawing.gather_vertices l).2.length ≤ l.length := by
  induction l with
  | nil => simp [Drawing.gather_vertices]
  | cons e rest ih =>
    simp only [Drawing.gather_vertices]
    cases e.specific <;> simp <;> omega

theorem swallow_seqend_length_le (l : List Entity) :
    (Drawing.swallow_seqend l).length ≤ l.length := by
  cases l with
  | nil => simp [Drawing.swallow_seqend]
  | cons e rest =>
    simp only [Drawing.swallow_seqend]
    cases e.specific <;> simp

/-- Drawing::read_entities from drawing.rs, over the lazy sequence of raw
entities produced by the external per-entity readers: an INSERT whose
has_attributes flag is set gathers following Attribute entities, a POLYLINE
gathers following Vertex entities, each then swallows one Seqend; every
other entity is pushed as it is. -/
def Drawing.read_entities : List Entity → List Entity
  | [] => []
  | e :: rest =>
    match e.specific with
    | EntityType.Insert ins =>
      if ins.has_attributes then
        let ga := Drawing.gather_attributes rest
        { common := e.common,
          specific := EntityType.Insert
            { ins with attributes := ins.attributes ++ ga.1 } } ::
          Drawing.read_entities (Drawing.swallow_seqend ga.2)
      else e :: Drawing.read_entities rest
    | EntityType.Polyline poly =>
      let gv := Drawing.gather_vertices rest
      { common := e.common,
        specific := EntityType.Polyline
          { poly with vertices := poly.vertices ++ gv.1 } } ::
        Drawing.read_entities (Drawing.swallow_seqend gv.2)
    | _ => e :: Drawing.read_entities rest
termination_by l => l.length
decreasing_by
  all_goals
    first
    | (have h1 := gather_attributes_length_le rest
       have h2 := swallow_seqend_length_le (Drawing.gather_attributes rest).2
       simp only [List.length_cons]
       omega)
    | (have h1 := gather_vertices_length_le rest
       have h2 := swallow_seqend_length_le (Drawing.gather_vertices rest).2
       simp only [List.length_cons]
       omega)
    | (simp only [List.length_cons]; omega)
    | simp

/-- The raw entity sequences on which the folder never starts an outer
iteration at an Attribute or a Vertex: the precondition under which the
post-processing invariant holds.  Its recursion follows
Drawing::read_entities exactly. -/
def Drawing.safe_raw_entities : List Entity → Bool
  | [] => true
  | e :: rest =>
    match e.specific with
    | EntityType.Attribute _ => false
    | EntityType.Vertex _ => false
    | EntityType.Insert ins =>
      if ins.has_attributes then
        Drawing.safe_raw_entities (Drawing.swallow_seqend (Drawing.gather_attributes rest).2)
      else Drawing.safe_raw_entities rest
    | EntityType.Polyline _ =>
      Drawing.safe_raw_entities (Drawing.swallow_seqend (Drawing.gather_vertices rest).2)
    | _ => Drawing.safe_raw_entities rest
termination_by l => l.length
decreasing_by
  all_goals
    first
    | (have h1 := gather_attributes_length_le rest
       have h2 := swallow_seqend_length_le (Drawing.gather_attributes rest).2
       simp only [List.length_cons]
       omega)
    | (have h1 := gather_vertices_length_le rest
       have h2 := swallow_seqend_length_le (Drawing.gather_vertices rest).2
       simp only [List.length_cons]
       omega)
    | (simp only [List.length_cons]; omega)
    | simp

/-! ## Lemmas about the caret codec -/

/-- Per-code-point description of escape_control_characters: a character
whose low byte needs escaping becomes a caret plus its mapping character,
every other character is emitted verbatim. -/
def escape_spec_char (c : Char) : List Char :=
  if needs_escaping c then ['^', (escape_byte (c.toNat % 256)).getD ' '] else [c]

theorem escape_byte_inverse :
    ∀ b < 95, (b ≤ 0x1F ∨ b = 0x5E) →
      (escape_byte b).isSome = true ∧
        un_escape_byte ((escape_byte b).getD ' ') = b := by
  decide

theorem escape_loop_append (l : List Char) :
    ∀ acc, escape_loop l acc = Option.map (acc ++ ·) (escape_loop l []) := by
  induction l with
  | nil => intro acc; simp [escape_loop]
  | cons c rest ih =>
    intro acc
    cases hn : needs_escaping c with
    | true =>
      cases hb : escape_byte (c.toNat % 256) with
      | none => simp [escape_loop, hn, hb]
      | some m =>
        simp only [escape_loop, hn, if_true, hb, List.nil_append]
        rw [ih, ih ['^', m], Option.map_map]
        cases escape_loop rest [] <;> simp
    | false =>
      simp only [escape_loop, hn, Bool.false_eq_true, if_false, List.nil_append]
      rw [ih, ih [c], Option.map_map]
      cases escape_loop rest [] <;> simp

theorem escape_loop_eq_flatMap (l : List Char) :
    escape_loop l [] = some (l.flatMap escape_spec_char) := by
  induction l with
  | nil => simp [escape_loop]
  | cons c rest ih =>
    by_cases hn : needs_escaping c
    · have hcond : c.toNat % 256 ≤ 0x1F ∨ c.toNat % 256 = 0x5E := by
        have := hn
        simp only [needs_escaping, Bool.or_eq_true, decide_eq_true_eq] at this
        exact this
      have hlt : c.toNat % 256 < 95 := by omega
      obtain ⟨hsome, -⟩ := escape_byte_inverse (c.toNat % 256) hlt hcond
      obtain ⟨m, hm⟩ := Option.isSome_iff_exists.mp hsome
      simp only [escape_loop, hn, if_true, hm, List.nil_append]
      rw [escape_loop_append, ih]
      simp [escape_spec_char, hn, hm]
    · simp only [escape_loop, hn, if_false, List.nil_append]
      rw [escape_loop_append, ih]
      simp [escape_spec_char, hn]

theorem un_escape_loop_caret_step (rest acc : List Char) :
    un_escape_loop ('^' :: rest) false acc = un_escape_loop rest true acc := by
  simp [un_escape_loop]

theorem un_escape_loop_mapped_step (c : Char) (rest acc : List Char) :
    un_escape_loop (c :: rest) true acc =
      un_escape_loop rest false (acc ++ [Char.ofNat (un_escape_byte c)]) := by
  simp [un_escape_loop]

theorem un_escape_loop_plain_step (c : Char) (rest acc : List Char) (h : ¬c = '^') :
    un_escape_loop (c :: rest) false acc = un_escape_loop rest false (acc ++ [c]) := by
  simp [un_escape_loop, h]

theorem un_escape_loop_append (l : List Char) :
    ∀ d acc, un_escape_loop l d acc = acc ++ un_escape_loop l d [] := by
  induction l with
  | nil => intro d acc; simp [un_escape_loop]
  | cons c rest ih =>
    intro d acc
    cases d with
    | false =>
      by_cases hc : c = '^'
      · subst hc
        rw [un_escape_loop_caret_step, un_escape_loop_caret_step]
        exact ih true acc
      · rw [un_escape_loop_plain_step c rest acc hc, un_escape_loop_plain_step c rest [] hc]
        rw [ih false (acc ++ [c]), ih false ([] ++ [c])]
        simp
    | true =>
      rw [un_escape_loop_mapped_step, un_escape_loop_mapped_step]
      rw [ih false (acc ++ [Char.ofNat (un_escape_byte c)]),
        ih false ([] ++ [Char.ofNat (un_escape_byte c)])]
      simp

/-- A character below 256 whose low byte is not escapable is not a caret. -/
theorem not_needs_escaping_ne_caret {c : Char} (hlt : c.toNat < 256)
    (hn : ¬needs_escaping c = true) : ¬c = '^' := by
  intro hc
  subst hc
  simp [needs_escaping] at hn

theorem un_escape_loop_escaped (l : List Char) (h : ∀ c ∈ l, c.toNat < 256) :
    ∀ acc, un_escape_loop (l.flatMap escape_spec_char) false acc = acc ++ l := by
  induction l with
  | nil => intro acc; simp [un_escape_loop]
  | cons c rest ih =>
    intro acc
    have hc : c.toNat < 256 := h c (List.mem_cons_self c rest)
    have hrest : ∀ x ∈ rest, x.toNat < 256 := fun x hx => h x (List.mem_cons_of_mem c hx)
    have hmod : c.toNat % 256 = c.toNat := Nat.mod_eq_of_lt hc
    cases hn : needs_escaping c with
    | true =>
      have hcond : c.toNat % 256 ≤ 0x1F ∨ c.toNat % 256 = 0x5E := by
        have := hn
        simp only [needs_escaping, Bool.or_eq_true, decide_eq_true_eq] at this
        exact this
      have hlt : c.toNat % 256 < 95 := by omega
      obtain ⟨hsome, hinv⟩ := escape_byte_inverse (c.toNat % 256) hlt hcond
      have hmback : un_escape_byte ((escape_byte (c.toNat % 256)).getD ' ') = c.toNat := by
        rw [hinv, hmod]
    
      simp only [List.flatMap_cons, escape_spec_char, hn, if_true, List.cons_append,
        List.nil_append]
      rw [un_escape_loop_caret_step, un_escape_loop_mapped_step, hmback, Char.ofNat_toNat]
      rw [ih hrest (acc ++ [c])]
      simp
    | false =>
      have hne : ¬c = '^' := not_needs_escaping_ne_caret hc (by simp [hn])
      simp only [List.flatMap_cons, escape_spec_char, hn, Bool.false_eq_true, if_false,
        List.singleton_append]
      rw [un_escape_loop_plain_step c _ acc hne]
      rw [ih hrest (acc ++ [c])]
      simp

theorem un_escape_list_cons_ne_caret {c : Char} (l : List Char) (hc : ¬c = '^') :
    un_escape_list (c :: l) = c :: un_escape_list l := by
  unfold un_escape_list
  rw [List.findIdx?_cons]
  simp only [hc, decide_eq_true_eq, if_neg (by simp [hc] : ¬(decide (c = '^') = true))]
  rw [List.findIdx?_succ]
  cases hf : l.findIdx? (fun x => x = '^') with
  | none => simp [hf]
  | some j =>
    simp only [hf, Option.map_some']
    change un_escape_loop (List.drop (j + 1) (c :: l)) false (List.take (j + 1) (c :: l)) =
      c :: un_escape_loop (List.drop j l) false (List.take j l)
    rw [List.take_succ_cons, List.drop_succ_cons]
    rw [un_escape_loop_append, un_escape_loop_append (l.drop j) false (l.take j)]
    simp

theorem un_escape_list_escaped (l : List Char) (h : ∀ c ∈ l, c.toNat < 256) :
    un_escape_list (l.flatMap escape_spec_char) = l := by
  induction l with
  | nil => simp [un_escape_list]
  | cons c rest ih =>
    have hc : c.toNat < 256 := h c (List.mem_cons_self c rest)
    have hrest : ∀ x ∈ rest, x.toNat < 256 := fun x hx => h x (List.mem_cons_of_mem c hx)
    have hmod : c.toNat % 256 = c.toNat := Nat.mod_eq_of_lt hc
    cases hn : needs_escaping c with
    | true =>
      have hcond : c.toNat % 256 ≤ 0x1F ∨ c.toNat % 256 = 0x5E := by
        have := hn
        simp only [needs_escaping, Bool.or_eq_true, decide_eq_true_eq] at this
        exact this
      have hlt : c.toNat % 256 < 95 := by omega
      obtain ⟨hsome, hinv⟩ := escape_byte_inverse (c.toNat % 256) hlt hcond
      have hmback : un_escape_byte ((escape_byte (c.toNat % 256)).getD ' ') = c.toNat := by
        rw [hinv, hmod]
      simp only [List.flatMap_cons, escape_spec_char, hn, if_true, List.cons_append,
        List.nil_append]
      unfold un_escape_list
      rw [List.findIdx?_cons]
      rw [if_pos (by simp : decide (('^' : Char) = '^') = true)]
      simp only [List.take_zero, List.drop_zero]
      rw [un_escape_loop_caret_step, un_escape_loop_mapped_step, hmback, Char.ofNat_toNat]
      rw [un_escape_loop_escaped rest hrest ([] ++ [c])]
      simp
    | false =>
      have hne : ¬c = '^' := not_needs_escaping_ne_caret hc (by simp [hn])
      simp only [List.flatMap_cons, escape_spec_char, hn, Bool.false_eq_true, if_false,
        List.singleton_append]
      rw [un_escape_list_cons_ne_caret _ hne, ih hrest]

/-- C7 counterexample: the claimed per-code-point condition tests the full
code point, but the code tests the code point truncated to a byte: the
character U+0100 is neither at most 0x1F nor 0x5E, yet it is not emitted
verbatim — it escapes to caret-at-sign. -/
theorem escape_control_characters_truncation_counterexample :
    escape_control_characters (String.mk [Char.ofNat 0x100]) = some "^@" ∧
      ¬((0x100 : Nat) ≤ 0x1F ∨ (0x100 : Nat) = 0x5E) ∧
      "^@" ≠ String.mk [Char.ofNat 0x100] := by
  decide

/-- C7 (amended): escape_control_characters transforms its input
per code point, escaping exactly the characters whose code point mod 256 is
at most 0x1F or equal to 0x5E into a caret plus the mapping character of
that low byte, and emitting every other code point verbatim; the seed
example holds. -/
theorem escape_control_characters_per_low_byte :
    (∀ s : String,
        escape_control_characters s =
          some (String.mk (s.data.flatMap escape_spec_char))) ∧
      escape_control_characters "a\x07^\x1E b" = some "a^G^ ^^ b" := by
  constructor
  · intro s
    simp [escape_control_characters, escape_loop_eq_flatMap]
  · decide

/-- C10: escape_control_characters is total — the panic arm of its mapping
match is unreachable, because needs_escaping and the match arms test the
same truncated byte, so the function always returns a string. -/
theorem escape_control_characters_total (s : String) :
    (escape_control_characters s).isSome = true := by
  simp [escape_control_characters, escape_loop_eq_flatMap]

/-- C6 counterexample: the caret codec does not round-trip on every string.
The character U+0100 escapes (via its truncated low byte) to caret-at-sign,
which unescapes to U+0000, not back to U+0100. -/
theorem caret_roundtrip_counterexample :
    (escape_control_characters (String.mk [Char.ofNat 0x100])).map
        CodePairValue.un_escape_string =
      some (String.mk [Char.ofNat 0x00]) ∧
      String.mk [Char.ofNat 0x00] ≠ String.mk [Char.ofNat 0x100] := by
  decide

/-- C6 (amended): the caret codec round-trips on every string whose
characters all have code points below 256 (so that the u8 truncation in
needs_escaping is lossless):
un_escape_string (escape_control_characters s) = s. -/
theorem caret_roundtrip_below_256 (s : String) (h : ∀ c ∈ s.data, c.toNat < 256) :
    ∃ t, escape_control_characters s = some t ∧
      CodePairValue.un_escape_string t = s := by
  obtain ⟨l⟩ := s
  refine ⟨String.mk (l.flatMap escape_spec_char), ?_, ?_⟩
  · simp [escape_control_characters, escape_loop_eq_flatMap]
  · show String.mk (un_escape_list (l.flatMap escape_spec_char)) = String.mk l
    rw [un_escape_list_escaped l h]

theorem caret_roundtrip_below_256_witness :
    ∃ t, escape_control_characters "a^G b" = some t ∧
      CodePairValue.un_escape_string t = "a^G b" :=
  caret_roundtrip_below_256 "a^G b" (by decide)

/-! ## Lemmas about the unicode codec -/

/-- Per-code-point description of escape_unicode_to_ascii. -/
def uni_spec_char (c : Char) : List Char :=
  if 128 ≤ c.toNat then '\\' :: 'U' :: '+' :: hex_04X c.toNat else [c]

theorem uni_escape_loop_append (l : List Char) :
    ∀ acc, uni_escape_loop l acc = acc ++ uni_escape_loop l [] := by
  induction l with
  | nil => intro acc; simp [uni_escape_loop]
  | cons c rest ih =>
    intro acc
    by_cases hc : 128 ≤ c.toNat
    · simp only [uni_escape_loop, hc, if_true]
      rw [ih, ih ([] ++ '\\' :: 'U' :: '+' :: hex_04X c.toNat)]
      simp
    · simp only [uni_escape_loop, hc, if_false]
      rw [ih, ih ([] ++ [c])]
      simp

theorem uni_escape_loop_eq_flatMap (l : List Char) :
    uni_escape_loop l [] = l.flatMap uni_spec_char := by
  induction l with
  | nil => simp [uni_escape_loop]
  | cons c rest ih =>
    by_cases hc : 128 ≤ c.toNat
    · simp only [uni_escape_loop, hc, if_true, List.nil_append]
      rw [uni_escape_loop_append, ih]
      simp [uni_spec_char, hc]
    · simp only [uni_escape_loop, hc, if_false, List.nil_append]
      rw [uni_escape_loop_append, ih]
      simp [uni_spec_char, hc]

theorem hex_val_hex_digit_char : ∀ m < 16, hex_val (hex_digit_char m) = some m := by
  decide

theorem parse_hex_04X_bmp (n : Nat) (h : n < 0x10000) :
    parse_hex_digits (hex_04X n) 0 = some n := by
  unfold hex_04X
  rw [if_pos h]
  have e1 := hex_val_hex_digit_char (n / 4096 % 16) (by omega)
  have e2 := hex_val_hex_digit_char (n / 256 % 16) (by omega)
  have e3 := hex_val_hex_digit_char (n / 16 % 16) (by omega)
  have e4 := hex_val_hex_digit_char (n % 16) (by omega)
  simp only [parse_hex_digits, e1, e2, e3, e4]
  congr 1
  omega

theorem ua_plain_step (c : Char) (rest : List Char) (i : Nat) (s0 : Nat)
    (q0 acc : List Char) (h : ¬c = '\\') :
    un_escape_ascii_loop (c :: rest) i false s0 q0 acc =
      un_escape_ascii_loop rest (i + 1) false s0 q0 (acc ++ [c]) := by
  simp [un_escape_ascii_loop, h]

theorem ua_start_step (rest : List Char) (i : Nat) (s0 : Nat) (q0 acc : List Char) :
    un_escape_ascii_loop ('\\' :: rest) i false s0 q0 acc =
      un_escape_ascii_loop rest (i + 1) true i ['\\'] acc := by
  simp [un_escape_ascii_loop]

theorem ua_buffer_step (c : Char) (rest : List Char) (i : Nat) (s0 : Nat)
    (q0 acc : List Char) (h : ¬i = s0 + 6) :
    un_escape_ascii_loop (c :: rest) i true s0 q0 acc =
      un_escape_ascii_loop rest (i + 1) true s0 (q0 ++ [c]) acc := by
  simp [un_escape_ascii_loop, h]

theorem ua_flush_uni_step (c : Char) (rest : List Char) (s0 : Nat) (q0 acc : List Char)
    (h : (q0 ++ [c]).take 3 = ['\\', 'U', '+']) :
    un_escape_ascii_loop (c :: rest) (s0 + 6) true s0 q0 acc =
      un_escape_ascii_loop rest (s0 + 6 + 1) false s0 []
        (acc ++ [decode_uni_seq ((q0 ++ [c]).drop 3)]) := by
  simp [un_escape_ascii_loop, h]

theorem un_escape_uni_escaped (l : List Char)
    (h : ∀ c ∈ l, c.toNat < 0x10000 ∧ ¬c = '\\') :
    ∀ i s0 q0 acc,
      un_escape_ascii_loop (l.flatMap uni_spec_char) i false s0 q0 acc = acc ++ l := by
  induction l with
  | nil => intro i s0 q0 acc; simp [un_escape_ascii_loop]
  | cons c rest ih =>
    intro i s0 q0 acc
    obtain ⟨hc, hcb⟩ := h c (List.mem_cons_self c rest)
    have hrest : ∀ x ∈ rest, x.toNat < 0x10000 ∧ ¬x = '\\' :=
      fun x hx => h x (List.mem_cons_of_mem c hx)
    by_cases hge : 128 ≤ c.toNat
    · have hhex : hex_04X c.toNat =
          [hex_digit_char (c.toNat / 4096 % 16), hex_digit_char (c.toNat / 256 % 16),
           hex_digit_char (c.toNat / 16 % 16), hex_digit_char (c.toNat % 16)] := by
        unfold hex_04X
        rw [if_pos hc]
      simp only [List.flatMap_cons, uni_spec_char, hge, if_true, hhex, List.cons_append,
        List.append_assoc]
      rw [ua_start_step]
      rw [ua_buffer_step _ _ _ _ _ _ (by omega)]
      rw [ua_buffer_step _ _ _ _ _ _ (by omega)]
      rw [ua_buffer_step _ _ _ _ _ _ (by omega)]
      rw [ua_buffer_step _ _ _ _ _ _ (by omega)]
      rw [ua_buffer_step _ _ _ _ _ _ (by omega)]
      have harith : i + 1 + 1 + 1 + 1 + 1 + 1 = i + 6 := by omega
      rw [harith]
      rw [ua_flush_uni_step _ _ _ _ _ (by simp)]
      have hdec : decode_uni_seq
          (((['\\'] ++ ['U'] ++ ['+'] ++ [hex_digit_char (c.toNat / 4096 % 16)] ++
            [hex_digit_char (c.toNat / 256 % 16)] ++ [hex_digit_char (c.toNat / 16 % 16)]) ++
            [hex_digit_char (c.toNat % 16)]).drop 3) = c := by
        have hd : ((['\\'] ++ ['U'] ++ ['+'] ++ [hex_digit_char (c.toNat / 4096 % 16)] ++
            [hex_digit_char (c.toNat / 256 % 16)] ++ [hex_digit_char (c.toNat / 16 % 16)]) ++
            [hex_digit_char (c.toNat % 16)]).drop 3 =
            [hex_digit_char (c.toNat / 4096 % 16), hex_digit_char (c.toNat / 256 % 16),
             hex_digit_char (c.toNat / 16 % 16), hex_digit_char (c.toNat % 16)] := by
          simp
        rw [hd]
        unfold decode_uni_seq
        have hp : parse_hex_digits
            [hex_digit_char (c.toNat / 4096 % 16), hex_digit_char (c.toNat / 256 % 16),
             hex_digit_char (c.toNat / 16 % 16), hex_digit_char (c.toNat % 16)] 0 =
            some c.toNat := by
          have := parse_hex_04X_bmp c.toNat hc
          unfold hex_04X at this
          rwa [if_pos hc] at this
        rw [hp]
        change (if c.toNat < 2 ^ 32 then
            if Nat.isValidChar c.toNat then Char.ofNat c.toNat else '?' else '?') = c
        rw [if_pos (by omega : c.toNat < 2 ^ 32)]
        have hv : Nat.isValidChar c.toNat := c.valid
        rw [if_pos hv]
        exact Char.ofNat_toNat c
      rw [hdec]
      simp only [List.nil_append]
      rw [ih hrest (i + 6 + 1) i [] (acc ++ [c])]
      simp
    · simp only [List.flatMap_cons, uni_spec_char, hge, if_false, List.singleton_append]
      rw [ua_plain_step _ _ _ _ _ _ hcb]
      rw [ih hrest (i + 1) s0 q0 (acc ++ [c])]
      simp

/-- C8 counterexample: a string over BMP scalar values need not round-trip
through the unicode codec.  The ASCII string backslash-U-plus-0041 is left
unchanged by the escaper but collapses to "A" in the unescaper. -/
theorem unicode_roundtrip_counterexample :
    escape_unicode_to_ascii "\\U+0041" = "\\U+0041" ∧
      un_escape_ascii_to_unicode (escape_unicode_to_ascii "\\U+0041") = "A" ∧
      (∀ c ∈ ("\\U+0041" : String).data, c.toNat < 0x10000) ∧
      "A" ≠ "\\U+0041" := by
  refine ⟨by decide, by decide, by decide, by decide⟩

/-- C8 (amended): the unicode codec round-trips on every string of BMP
scalar values that contains no backslash character (a literal backslash can
start a spurious escape sequence in the unescaper):
un_escape_ascii_to_unicode (escape_unicode_to_ascii s) = s. -/
theorem unicode_roundtrip_bmp (s : String)
    (h : ∀ c ∈ s.data, c.toNat < 0x10000 ∧ ¬c = '\\') :
    un_escape_ascii_to_unicode (escape_unicode_to_ascii s) = s := by
  obtain ⟨l⟩ := s
  show String.mk (un_escape_ascii_loop (uni_escape_loop l []) 0 false 0 [] []) = String.mk l
  rw [uni_escape_loop_eq_flatMap]
  rw [un_escape_uni_escaped l h 0 0 [] []]
  rfl

theorem unicode_roundtrip_bmp_witness :
    un_escape_ascii_to_unicode
        (escape_unicode_to_ascii (String.mk ['h', 'i', Char.ofNat 0x4F60])) =
      String.mk ['h', 'i', Char.ofNat 0x4F60] :=
  unicode_roundtrip_bmp (String.mk ['h', 'i', Char.ofNat 0x4F60]) (by decide)

/-! ## Lemmas about the float formatter -/

theorem char_isDigit_ofNat : ∀ m < 10, (Char.ofNat (48 + m)).isDigit = true := by
  decide

theorem dec_digits_core_shape :
    ∀ fuel n acc, n < fuel →
      ∃ pre, dec_digits_core fuel n acc = pre ++ acc ∧ pre ≠ [] ∧
        ∀ c ∈ pre, c.isDigit = true := by
  intro fuel
  induction fuel with
  | zero => intro n acc h; omega
  | succ f ih =>
    intro n acc h
    simp only [dec_digits_core]
    by_cases h10 : n / 10 = 0
    · refine ⟨[Char.ofNat (48 + n % 10)], by simp [h10], by simp, ?_⟩
      intro c hc
      simp only [List.mem_singleton] at hc
      subst hc
      exact char_isDigit_ofNat _ (by omega)
    · rw [if_neg h10]
      have hlt : n / 10 < f := by
        have h1 : n / 10 < n := Nat.div_lt_self (by omega) (by omega)
        omega
      obtain ⟨pre, heq, hne, hdig⟩ := ih (n / 10) (Char.ofNat (48 + n % 10) :: acc) hlt
      refine ⟨pre ++ [Char.ofNat (48 + n % 10)], by rw [heq]; simp, by simp, ?_⟩
      intro c hc
      rcases List.mem_append.mp hc with hc | hc
      · exact hdig c hc
      · simp only [List.mem_singleton] at hc
        subst hc
        exact char_isDigit_ofNat _ (by omega)

theorem dec_digits_shape (n : Nat) :
    dec_digits n ≠ [] ∧ ∀ c ∈ dec_digits n, c.isDigit = true := by
  obtain ⟨pre, heq, hne, hdig⟩ := dec_digits_core_shape (n + 1) n [] (by omega)
  unfold dec_digits
  rw [heq]
  simp only [List.append_nil]
  exact ⟨hne, hdig⟩

theorem isDigit_ne_dot {c : Char} (h : c.isDigit = true) : ¬c = '.' := by
  intro hc
  subst hc
  simp [Char.isDigit] at h

theorem dropWhile_head_not {α : Type} (p : α → Bool) (l : List α) :
    ∀ c t2, l.dropWhile p = c :: t2 → p c = false := by
  induction l with
  | nil => intro c t2 h; simp [List.dropWhile] at h
  | cons a rest ih =>
    intro c t2 h
    by_cases hp : p a
    · rw [List.dropWhile_cons_of_pos hp] at h
      exact ih c t2 h
    · rw [List.dropWhile_cons_of_neg hp] at h
      obtain ⟨rfl, -⟩ := List.cons.injEq a rest c t2 ▸ h
      exact Bool.not_eq_true (p a) ▸ hp
      
/-- The trim-then-restore suffix of format_f64 on a rendering made of a
prefix, a dot and a nonempty all-digit fractional part. -/
theorem trim_restore_shape (x fr : List Char) (hfr : ∀ c ∈ fr, c.isDigit = true)
    (hfrne : fr ≠ []) :
    ∃ post,
      (if (trim_trailing_zeros (x ++ '.' :: fr)).getLast? = some '.' then
          trim_trailing_zeros (x ++ '.' :: fr) ++ ['0']
        else trim_trailing_zeros (x ++ '.' :: fr)) = x ++ '.' :: post ∧
      '.' ∉ post ∧ post ≠ [] ∧ (∀ c ∈ post, c.isDigit = true) ∧
      (post.getLast? = some '0' → post = ['0']) := by
  have hrev : (x ++ '.' :: fr).reverse = fr.reverse ++ '.' :: x.reverse := by
    simp
  unfold trim_trailing_zeros
  rw [hrev, List.dropWhile_append]
  by_cases hempty : (fr.reverse.dropWhile (fun c => c = '0')).isEmpty
  · rw [if_pos hempty]
    rw [List.dropWhile_cons_of_neg (by simp)]
    have hval : ('.' :: x.reverse).reverse = x ++ ['.'] := by simp
    rw [hval]
    rw [if_pos (List.getLast?_concat x)]
    exact ⟨['0'], by simp, by simp, by simp, by simp, by simp⟩
  · rw [if_neg hempty]
    set t := fr.reverse.dropWhile (fun c => c = '0') with ht
    obtain ⟨d, t2, hteq⟩ : ∃ d t2, t = d :: t2 := by
      cases htc : t with
      | nil => rw [htc] at hempty; simp at hempty
      | cons d t2 => exact ⟨d, t2, rfl⟩
    have hd_not0 : (fun c => decide (c = '0')) d = false :=
      dropWhile_head_not _ fr.reverse d t2 (ht ▸ hteq)
    have hd_ne0 : ¬d = '0' := by simpa using hd_not0
    have ht_sub : ∀ c ∈ t, c ∈ fr := by
      intro c hc
      have hmem : c ∈ fr.reverse :=
        (List.dropWhile_sublist (p := fun c => decide (c = '0'))
          (l := fr.reverse)).mem (ht ▸ hc)
      exact List.mem_reverse.mp hmem
    have hd_digit : d.isDigit = true :=
      hfr d (ht_sub d (hteq ▸ List.mem_cons_self d t2))
    have hd_ne_dot : ¬d = '.' := isDigit_ne_dot hd_digit
    have hval : (t ++ '.' :: x.reverse).reverse = x ++ '.' :: t.reverse := by simp
    rw [hval]
    have htrev_ne : t.reverse ≠ [] := by rw [hteq]; simp
    have hlast : (x ++ '.' :: t.reverse).getLast? = some d := by
      rw [List.getLast?_append_of_ne_nil x (by simp : ('.' :: t.reverse) ≠ [])]
      rw [show ('.' :: t.reverse) = ['.'] ++ t.reverse from rfl]
      rw [List.getLast?_append_of_ne_nil ['.'] htrev_ne, List.getLast?_reverse, hteq]
      rfl
    rw [hlast]
    rw [if_neg (by simp [hd_ne_dot])]
    refine ⟨t.reverse, rfl, ?_, htrev_ne, ?_, ?_⟩
    · intro hdot
      have hdig := hfr '.' (ht_sub '.' (List.mem_reverse.mp hdot))
      simp [Char.isDigit] at hdig
    · intro c hc
      exact hfr c (ht_sub c (List.mem_reverse.mp hc))
    · intro h0
      have hlast2 : (t.reverse).getLast? = some d := by
        rw [List.getLast?_reverse, hteq]; rfl
      rw [hlast2] at h0
      exact absurd (Option.some.inj h0) hd_ne0

/-- C9: for every finite f64 value, format_f64 yields exactly one dot, at
least one digit after it, and no trailing zero unless that zero is the sole
fractional digit; the four seed examples evaluate as specified (0.1 and
2.0e-9 are given by their exact dyadic f64 values). -/
theorem format_f64_shape_and_examples :
    (∀ v : F64, ∃ pre post,
        (format_f64 v).data = pre ++ '.' :: post ∧
        '.' ∉ pre ∧ '.' ∉ post ∧ post ≠ [] ∧
        (∀ c ∈ post, c.isDigit = true) ∧
        (post.getLast? = some '0' → post = ['0'])) ∧
      format_f64 ⟨1, 0⟩ = "1.0" ∧ format_f64 ⟨3, 1⟩ = "1.5" ∧
      format_f64 ⟨3602879701896397, 55⟩ = "0.1" ∧
      format_f64 ⟨4835703278458517, 81⟩ = "0.000000002" := by
  refine ⟨?_, by decide, by decide, by decide, by decide⟩
  intro v
  obtain ⟨hip_ne, hip_dig⟩ := dec_digits_shape (scaled_magnitude_12 v / 10 ^ 12)
  obtain ⟨hfp_ne, hfp_dig⟩ := dec_digits_shape (scaled_magnitude_12 v % 10 ^ 12)
  set fr := List.replicate (12 - (dec_digits (scaled_magnitude_12 v % 10 ^ 12)).length) '0' ++
    dec_digits (scaled_magnitude_12 v % 10 ^ 12) with hfr_def
  set x := (if v.num < 0 then ['-'] else []) ++
    dec_digits (scaled_magnitude_12 v / 10 ^ 12) with hx_def
  have hfr : ∀ c ∈ fr, c.isDigit = true := by
    intro c hc
    rcases List.mem_append.mp hc with hc | hc
    · rw [List.eq_of_mem_replicate hc]; decide
    · exact hfp_dig c hc
  have hfrne : fr ≠ [] := by
    rw [hfr_def]
    intro hcontra
    exact hfp_ne (List.append_eq_nil.mp hcontra).2
  have hx_nodot : '.' ∉ x := by
    intro hdot
    rcases List.mem_append.mp hdot with hdot | hdot
    · by_cases hv : v.num < 0
      · rw [if_pos hv] at hdot
        simp at hdot
      · rw [if_neg hv] at hdot
        simp at hdot
    · exact isDigit_ne_dot (hip_dig '.' hdot) rfl
  have hrender : render_fixed_12 v = x ++ '.' :: fr := rfl
  obtain ⟨post, hpost, hnodot, hpostne, hpostdig, hlastcond⟩ :=
    trim_restore_shape x fr hfr hfrne
  refine ⟨x, post, ?_, hx_nodot, hnodot, hpostne, hpostdig, hlastcond⟩
  show (String.mk (if (trim_trailing_zeros (render_fixed_12 v)).getLast? = some '.' then
      trim_trailing_zeros (render_fixed_12 v) ++ ['0']
    else trim_trailing_zeros (render_fixed_12 v))).data = x ++ '.' :: post
  rw [hrender, hpost]

/-! ## Claims about Drawing::load and the entity post-processor -/

/-- C1: Drawing::load boundary scenarios, for every choice of the external
HEADER / ENTITIES / TABLES sub-readers: an empty stream loads as an empty
Drawing; a stream holding only 0/EOF loads as an empty Drawing; the stream
0/SECTION, 2/FOO, 0/ENDSEC, 0/EOF loads as an empty Drawing (the unknown
section FOO is swallowed); and a stream opening with 9/xyz fails with
UnexpectedCodePair.  End of stream in the Outer state is not an error. -/
theorem drawing_load_boundary_scenarios
    (read_header : PairStream → Option (DxfResult (Header × PairStream)))
    (read_entities_section read_tables_section :
      Drawing → PairStream → Option (DxfResult (Drawing × PairStream)))
    (fuel : Nat) (tail : PairStream) (hfuel : 2 ≤ fuel) :
    Drawing.load read_header read_entities_section read_tables_section fuel [] =
      some (Except.ok Drawing.new) ∧
    Drawing.load read_header read_entities_section read_tables_section fuel
        [Except.ok ⟨0, CodePairValue.Str "EOF", 1⟩] =
      some (Except.ok Drawing.new) ∧
    Drawing.load read_header read_entities_section read_tables_section fuel
        [Except.ok ⟨0, CodePairValue.Str "SECTION", 1⟩,
         Except.ok ⟨2, CodePairValue.Str "FOO", 2⟩,
         Except.ok ⟨0, CodePairValue.Str "ENDSEC", 3⟩,
         Except.ok ⟨0, CodePairValue.Str "EOF", 4⟩] =
      some (Except.ok Drawing.new) ∧
    Drawing.load read_header read_entities_section read_tables_section fuel
        (Except.ok ⟨9, CodePairValue.Str "xyz", 1⟩ :: tail) =
      some (Except.error (DxfError.UnexpectedCodePair ⟨9, CodePairValue.Str "xyz", 1⟩
        "expected 0/SECTION or 0/EOF")) := by
  obtain ⟨f, rfl⟩ : ∃ f, fuel = f + 2 := ⟨fuel - 2, by omega⟩
  refine ⟨?_, ?_, ?_, ?_⟩
  · simp [Drawing.load, Drawing.read_sections]
  · simp [Drawing.load, Drawing.read_sections, CodePairValue.assert_string]
  · simp [Drawing.load, Drawing.read_sections, Drawing.swallow_section,
      CodePairValue.assert_string]
  · simp [Drawing.load, Drawing.read_sections, CodePairValue.assert_string]

theorem drawing_load_boundary_scenarios_witness :
    Drawing.load (fun _ => none) (fun _ _ => none) (fun _ _ => none) 2 [] =
      some (Except.ok Drawing.new) ∧
    Drawing.load (fun _ => none) (fun _ _ => none) (fun _ _ => none) 2
        [Except.ok ⟨0, CodePairValue.Str "EOF", 1⟩] =
      some (Except.ok Drawing.new) ∧
    Drawing.load (fun _ => none) (fun _ _ => none) (fun _ _ => none) 2
        [Except.ok ⟨0, CodePairValue.Str "SECTION", 1⟩,
         Except.ok ⟨2, CodePairValue.Str "FOO", 2⟩,
         Except.ok ⟨0, CodePairValue.Str "ENDSEC", 3⟩,
         Except.ok ⟨0, CodePairValue.Str "EOF", 4⟩] =
      some (Except.ok Drawing.new) ∧
    Drawing.load (fun _ => none) (fun _ _ => none) (fun _ _ => none) 2
        (Except.ok ⟨9, CodePairValue.Str "xyz", 1⟩ :: []) =
      some (Except.error (DxfError.UnexpectedCodePair ⟨9, CodePairValue.Str "xyz", 1⟩
        "expected 0/SECTION or 0/EOF")) :=
  drawing_load_boundary_scenarios (fun _ => none) (fun _ _ => none) (fun _ _ => none)
    2 [] (by decide)

/-- C4 counterexample: a Seqend outside any folding context is NOT
discarded — it is pushed as a top-level entity of the drawing. -/
theorem read_entities_keeps_stray_seqend :
    Drawing.read_entities [⟨⟨7⟩, EntityType.Seqend ⟨3⟩⟩] =
      [⟨⟨7⟩, EntityType.Seqend ⟨3⟩⟩] := by
  simp [Drawing.read_entities]

/-- C4 (amended): every entity other than an attribute-bearing Insert or a
Polyline is emitted unchanged by the entity post-processor — including a
Seqend encountered outside the INSERT/POLYLINE folding contexts, which is
kept as a top-level entity rather than discarded. -/
theorem read_entities_nonfoldable_unchanged (e : Entity) (l : List Entity)
    (h1 : ∀ ins, e.specific = EntityType.Insert ins → ins.has_attributes = false)
    (h2 : ∀ poly, ¬e.specific = EntityType.Polyline poly) :
    Drawing.read_entities (e :: l) = e :: Drawing.read_entities l := by
  obtain ⟨common, specific⟩ := e
  cases hs : specific with
  | Insert ins =>
    have hflag := h1 ins (by rw [hs])
    simp [Drawing.read_entities, hflag]
  | Polyline poly => exact absurd (by rw [hs]) (h2 poly)
  | Attribute a => simp [Drawing.read_entities]
  | Vertex v => simp [Drawing.read_entities]
  | Seqend s => simp [Drawing.read_entities]
  | Other k => simp [Drawing.read_entities]

theorem read_entities_nonfoldable_unchanged_witness :
    Drawing.read_entities [⟨⟨7⟩, EntityType.Seqend ⟨3⟩⟩, ⟨⟨8⟩, EntityType.Other 1⟩] =
      ⟨⟨7⟩, EntityType.Seqend ⟨3⟩⟩ ::
        Drawing.read_entities [⟨⟨8⟩, EntityType.Other 1⟩] :=
  read_entities_nonfoldable_unchanged ⟨⟨7⟩, EntityType.Seqend ⟨3⟩⟩
    [⟨⟨8⟩, EntityType.Other 1⟩] (by intro ins h; cases h) (by intro poly h; cases h)

/-- Whether the specific part of an entity is an Attribute. -/
def EntityType.is_attribute : EntityType → Bool
  | EntityType.Attribute _ => true
  | _ => false

/-- Whether the specific part of an entity is a Vertex. -/
def EntityType.is_vertex : EntityType → Bool
  | EntityType.Vertex _ => true
  | _ => false

/-- C5 counterexample: an orphan Vertex at the head of the raw entity
sequence is pushed as a top-level entity, violating the claimed invariant
for arbitrary raw sequences. -/
theorem read_entities_orphan_vertex_counterexample :
    Drawing.read_entities [⟨⟨7⟩, EntityType.Vertex ⟨3⟩⟩] =
      [⟨⟨7⟩, EntityType.Vertex ⟨3⟩⟩] ∧
      (Drawing.read_entities [⟨⟨7⟩, EntityType.Vertex ⟨3⟩⟩]).all
        (fun e => !e.specific.is_vertex) = false := by
  constructor
  · simp [Drawing.read_entities]
  · simp [Drawing.read_entities, EntityType.is_vertex]

/-- C5 (amended): for every raw entity sequence on which the folder never
starts an outer iteration at an orphan Attribute or Vertex
(safe_raw_entities), the resulting top-level entities contain no Attribute
and no Vertex — they only survive inside their parents. -/
theorem read_entities_no_child_top_level (l : List Entity)
    (h : Drawing.safe_raw_entities l = true) :
    (Drawing.read_entities l).all
      (fun e => !e.specific.is_attribute && !e.specific.is_vertex) = true := by
  induction l using Drawing.safe_raw_entities.induct with
  | case1 => simp [Drawing.read_entities]
  | case2 e rest att hatt =>
    rw [Drawing.safe_raw_entities] at h
    simp [hatt] at h
  | case3 e rest v hv =>
    rw [Drawing.safe_raw_entities] at h
    simp [hv] at h
  | case4 e rest ins hins hflag ih =>
    rw [Drawing.safe_raw_entities] at h
    simp only [hins, hflag, if_true] at h
    rw [Drawing.read_entities]
    simp only [hins, hflag, if_true, List.all_cons]
    rw [ih h]
    simp [EntityType.is_attribute, EntityType.is_vertex]
  | case5 e rest ins hins hflag ih =>
    rw [Drawing.safe_raw_entities] at h
    simp only [hins] at h
    rw [if_neg hflag] at h
    rw [Drawing.read_entities]
    simp only [hins]
    rw [if_neg hflag]
    simp only [List.all_cons]
    rw [ih h]
    simp [hins, EntityType.is_attribute, EntityType.is_vertex]
  | case6 e rest poly hpoly ih =>
    rw [Drawing.safe_raw_entities] at h
    simp only [hpoly] at h
    rw [Drawing.read_entities]
    simp only [hpoly, List.all_cons]
    rw [ih h]
    simp [EntityType.is_attribute, EntityType.is_vertex]
  | case7 e rest hatt hv hins hpoly ih =>
    rw [Drawing.safe_raw_entities] at h
    rw [Drawing.read_entities]
    rcases hcase : e.specific with ins | poly | a | v | s | k
    · exact absurd hcase (fun hc => hins _ hc)
    · exact absurd hcase (fun hc => hpoly _ hc)
    · exact absurd hcase (fun hc => hatt _ hc)
    · exact absurd hcase (fun hc => hv _ hc)
    · simp only [hcase] at h ⊢
      simp only [List.all_cons]
      rw [ih h]
      simp [hcase, EntityType.is_attribute, EntityType.is_vertex]
    · simp only [hcase] at h ⊢
      simp only [List.all_cons]
      rw [ih h]
      simp [hcase, EntityType.is_attribute, EntityType.is_vertex]

theorem read_entities_no_child_top_level_witness :
    (Drawing.read_entities
        [⟨⟨1⟩, EntityType.Insert ⟨true, [], 0⟩⟩, ⟨⟨2⟩, EntityType.Attribute ⟨5⟩⟩,
         ⟨⟨3⟩, EntityType.Seqend ⟨6⟩⟩, ⟨⟨4⟩, EntityType.Other 9⟩]).all
      (fun e => !e.specific.is_attribute && !e.specific.is_vertex) = true :=
  read_entities_no_child_top_level
    [⟨⟨1⟩, EntityType.Insert ⟨true, [], 0⟩⟩, ⟨⟨2⟩, EntityType.Attribute ⟨5⟩⟩,
     ⟨⟨3⟩, EntityType.Seqend ⟨6⟩⟩, ⟨⟨4⟩, EntityType.Other 9⟩]
    (by simp [Drawing.safe_raw_entities, Drawing.gather_attributes, Drawing.swallow_seqend])

/-- C3 (code bug): when XData::read_item meets a pair with code 1001 (a new
XDATA block for another application) it breaks WITHOUT putting the pair
back: the returned remaining stream is empty, so the 1001/SECOND_APP pair
has been consumed and lost instead of being left for the caller. -/
theorem xdata_read_item_consumes_next_application_pair :
    XData.read_item 5 "FIRST_APP"
        [Except.ok (CodePair.new_string 1000 "value"),
         Except.ok (CodePair.new_string 1001 "SECOND_APP")] =
      some (Except.ok (XData.mk "FIRST_APP" [XDataItem.Str "value"], [])) := rfl

/-! ## Hexadecimal round-trip lemmas -/

theorem parse_hex_digits_append (l1 l2 : List Char) :
    ∀ a, parse_hex_digits (l1 ++ l2) a =
      match parse_hex_digits l1 a with
      | some m => parse_hex_digits l2 m
      | none => none := by
  induction l1 with
  | nil => intro a; simp [parse_hex_digits]
  | cons c rest ih =>
    intro a
    simp only [List.cons_append, parse_hex_digits]
    cases hex_val c with
    | none => rfl
    | some d => exact ih (a * 16 + d)

theorem hex_digits_core_parse :
    ∀ fuel n acc, n < 16 ^ fuel → 0 < fuel →
      ∃ ds, hex_digits_core fuel n acc = ds ++ acc ∧ ds ≠ [] ∧
        ∀ a, parse_hex_digits ds a = some (a * 16 ^ ds.length + n) := by
  intro fuel
  induction fuel with
  | zero => intro n acc h hpos; omega
  | succ f ih =>
    intro n acc h hpos
    have hd : hex_val (hex_digit_char (n % 16)) = some (n % 16) :=
      hex_val_hex_digit_char (n % 16) (by omega)
    simp only [hex_digits_core]
    by_cases h16 : n / 16 = 0
    · rw [if_pos h16]
      refine ⟨[hex_digit_char (n % 16)], rfl, by simp, ?_⟩
      intro a
      simp only [parse_hex_digits, hd, List.length_singleton, pow_one]
      have hn : n % 16 = n := by omega
      rw [hn]
    · rw [if_neg h16]
      have hlt : n / 16 < 16 ^ f := by
        rw [Nat.div_lt_iff_lt_mul (by norm_num)]
        calc n < 16 ^ (f + 1) := h
          _ = 16 ^ f * 16 := by rw [pow_succ]
      have hfpos : 0 < f := by
        rcases Nat.eq_zero_or_pos f with hf0 | hf0
        · rw [hf0] at hlt
          simp at hlt
          omega
        · exact hf0
      obtain ⟨ds, heq, hne, hparse⟩ := ih (n / 16) (hex_digit_char (n % 16) :: acc) hlt hfpos
      refine ⟨ds ++ [hex_digit_char (n % 16)], by rw [heq]; simp, by simp, ?_⟩
      intro a
      rw [parse_hex_digits_append]
      rw [hparse a]
      simp only [parse_hex_digits, hd]
      have hdm : n / 16 * 16 + n % 16 = n := by omega
      have harith : (a * 16 ^ ds.length + n / 16) * 16 + n % 16 =
          a * 16 ^ (ds ++ [hex_digit_char (n % 16)]).length + n := by
        rw [List.length_append, List.length_singleton, pow_succ]
        calc (a * 16 ^ ds.length + n / 16) * 16 + n % 16
            = a * (16 ^ ds.length * 16) + (n / 16 * 16 + n % 16) := by ring
          _ = a * (16 ^ ds.length * 16) + n := by rw [hdm]
      rw [harith]

theorem as_handle_roundtrip (h : Nat) (hlt : h < 2 ^ 32) :
    parse_hex_u32 (as_handle h) = some h := by
  have hbound : h < 16 ^ (h + 1) := by
    calc h < 2 ^ h := Nat.lt_two_pow h
      _ ≤ 16 ^ h := Nat.pow_le_pow_left (by norm_num) h
      _ ≤ 16 ^ (h + 1) := Nat.pow_le_pow_right (by norm_num) (by omega)
  obtain ⟨ds, heq, hne, hparse⟩ := hex_digits_core_parse (h + 1) h [] hbound (by omega)
  have hds : hex_digits h = ds := by
    unfold hex_digits
    rw [heq, List.append_nil]
  obtain ⟨c, cs, rfl⟩ : ∃ c cs, ds = c :: cs := by
    cases ds with
    | nil => exact absurd rfl hne
    | cons c cs => exact ⟨c, cs, rfl⟩
  show (match (String.mk (hex_digits h)).data with
    | [] => none
    | l => match parse_hex_digits l 0 with
      | some n => if n < 2 ^ 32 then some n else none
      | none => none) = some h
  rw [show (String.mk (hex_digits h)).data = hex_digits h from rfl, hds]
  have hp := hparse 0
  simp only [Nat.zero_mul, Nat.zero_add] at hp
  change (match parse_hex_digits (c :: cs) 0 with
    | some n => if n < 2 ^ 32 then some n else none
    | none => none) = some h
  rw [hp]
  change (if h < 2 ^ 32 then some h else none) = some h
  rw [if_pos hlt]

theorem parse_hex_byte_pairs_roundtrip (bs : List Nat) (h : ∀ b ∈ bs, b < 256) :
    parse_hex_byte_pairs (bs.flatMap byte_hex_chars) = some bs := by
  induction bs with
  | nil => simp [parse_hex_byte_pairs]
  | cons b rest ih =>
    have hb : b < 256 := h b (List.mem_cons_self b rest)
    have hrest : ∀ x ∈ rest, x < 256 := fun x hx => h x (List.mem_cons_of_mem b hx)
    have h1 : hex_val (hex_digit_char (b / 16 % 16)) = some (b / 16 % 16) :=
      hex_val_hex_digit_char _ (by omega)
    have h2 : hex_val (hex_digit_char (b % 16)) = some (b % 16) :=
      hex_val_hex_digit_char _ (by omega)
    simp only [List.flatMap_cons, byte_hex_chars, List.cons_append, List.nil_append,
      parse_hex_byte_pairs, h1, h2]
    have harith : b / 16 % 16 * 16 + b % 16 = b := by omega
    rw [harith]
    have ih2 : parse_hex_byte_pairs ([].append (List.map byte_hex_chars rest).flatten) =
        some rest := ih hrest
    rw [ih2]

theorem flatMap_byte_hex_length_even (bs : List Nat) :
    (bs.flatMap byte_hex_chars).length % 2 = 0 := by
  induction bs with
  | nil => simp
  | cons b rest ih =>
    simp only [List.flatMap_cons, byte_hex_chars, List.length_append, List.length_cons,
      List.length_nil]
    omega

theorem parse_hex_string_roundtrip (bs : List Nat) (h : ∀ b ∈ bs, b < 256) :
    parse_hex_string (String.mk (bs.flatMap byte_hex_chars)) = some bs := by
  have heven := flatMap_byte_hex_length_even bs
  show (let l := bs.flatMap byte_hex_chars;
    let l := if l.length % 2 = 1 then '0' :: l else l;
    parse_hex_byte_pairs l) = some bs
  simp only
  rw [if_neg (by omega)]
  exact parse_hex_byte_pairs_roundtrip bs h

/-! ## XDATA round trip -/

theorem xdata_item_sizeOf_pos (item : XDataItem) : 0 < sizeOf item := by
  cases item <;> simp <;> omega

theorem xdata_items_sizeOf_pos (items : List XDataItem) : 0 < sizeOf items := by
  cases items <;> simp <;> omega

@[simp] theorem CodePair.code_new_string (c : Int) (s : String) :
    (CodePair.new_string c s).code = c := rfl

@[simp] theorem CodePair.new_str_eq (c : Int) (s : String) :
    CodePair.new_str c s = CodePair.new_string c s := rfl

@[simp] theorem CodePair.code_new_f64 (c : Int) (d : F64) :
    (CodePair.new_f64 c d).code = c := rfl

@[simp] theorem CodePair.code_new_i16 (c : Int) (i : Int) :
    (CodePair.new_i16 c i).code = c := rfl

@[simp] theorem CodePair.code_new_i32 (c : Int) (i : Int) :
    (CodePair.new_i32 c i).code = c := rfl

@[simp] theorem CodePair.assert_string_new_string (c : Int) (s : String) :
    (CodePair.new_string c s).assert_string = Except.ok s := rfl

@[simp] theorem CodePair.assert_f64_new_f64 (c : Int) (d : F64) :
    (CodePair.new_f64 c d).assert_f64 = Except.ok d := rfl

@[simp] theorem CodePair.assert_i16_new_i16 (c : Int) (i : Int) :
    (CodePair.new_i16 c i).assert_i16 = Except.ok i := rfl

@[simp] theorem CodePair.assert_i32_new_i32 (c : Int) (i : Int) :
    (CodePair.new_i32 c i).assert_i32 = Except.ok i := rfl

theorem xdata_read_write (fuel : Nat) :
    (∀ item : XDataItem, XDataItem.producible item = true → sizeOf item ≤ fuel →
      ∀ rest : PairStream, ∃ p ps, XDataItem.write item = p :: ps ∧
        XDATA_STRING ≤ p.code ∧ ¬p.code = XDATA_APPLICATIONNAME ∧
        (p.code = XDATA_CONTROLGROUP → CodePair.assert_string p = Except.ok "\x7b") ∧
        (xDataReadersAt fuel).read_item p (List.map Except.ok ps ++ rest) =
          some (Except.ok (item, rest))) ∧
    (∀ items : List XDataItem, XDataItem.producible_list items = true →
      sizeOf items ≤ fuel → ∀ rest : PairStream,
        (xDataReadersAt fuel).read_group_items
            (List.map Except.ok (XDataItem.write_list items) ++
              Except.ok (CodePair.new_str XDATA_CONTROLGROUP "\x7d") :: rest) =
          some (Except.ok (items, rest))) := by
  induction fuel with
  | zero =>
    constructor
    · intro item _ hsz
      have := xdata_item_sizeOf_pos item
      omega
    · intro items _ hsz
      have := xdata_items_sizeOf_pos items
      omega
  | succ f ih =>
    obtain ⟨ih1, ih2⟩ := ih
    constructor
    · intro item hp hsz rest
      cases item with
      | Str s =>
        refine ⟨CodePair.new_string XDATA_STRING s, [], rfl, by simp, by simp, by simp, ?_⟩
        simp [xDataReadersAt, xDataStep]
      | ControlGroup items =>
        have hpl : XDataItem.producible_list items = true := hp
        have hszl : sizeOf items ≤ f := by
          simp only [XDataItem.ControlGroup.sizeOf_spec] at hsz
          omega
        refine ⟨CodePair.new_str XDATA_CONTROLGROUP "\x7b",
          XDataItem.write_list items ++ [CodePair.new_str XDATA_CONTROLGROUP "\x7d"],
          rfl, by simp, by simp, fun _ => rfl, ?_⟩
        have hgrp := ih2 items hpl hszl rest
        simp only [CodePair.new_str_eq, XDATA_CONTROLGROUP] at hgrp
        simp only [List.map_append, List.map_cons, List.map_nil, List.append_assoc,
          List.cons_append, List.nil_append]
        simp [xDataReadersAt, xDataStep, hgrp]
      | LayerName s =>
        refine ⟨CodePair.new_string XDATA_LAYER s, [], rfl, by simp, by simp, by simp, ?_⟩
        simp [xDataReadersAt, xDataStep]
      | BinaryData data =>
        have hbytes : ∀ b ∈ data, b < 256 := by
          intro b hb
          have hall := hp
          simp only [XDataItem.producible, List.all_eq_true] at hall
          exact of_decide_eq_true (hall b hb)
        refine ⟨CodePair.new_string XDATA_BINARYDATA
          (String.mk (data.flatMap byte_hex_chars)), [], rfl, by simp, by simp,
          by simp, ?_⟩
        have hparse := parse_hex_string_roundtrip data hbytes
        simp [xDataReadersAt, xDataStep, hparse]
      | Handle h =>
        have hlt : h < 2 ^ 32 := by
          have hd := hp
          simp only [XDataItem.producible] at hd
          exact of_decide_eq_true hd
        refine ⟨CodePair.new_string XDATA_HANDLE (as_handle h), [], rfl, by simp,
          by simp, by simp, ?_⟩
        have hparse := as_handle_roundtrip h hlt
        simp [xDataReadersAt, xDataStep, CodePair.as_handle, hparse]
      | ThreeReals x y z =>
        refine ⟨CodePair.new_f64 XDATA_THREEREALS x,
          [CodePair.new_f64 XDATA_THREEREALS y, CodePair.new_f64 XDATA_THREEREALS z],
          rfl, by simp, by simp, by simp, ?_⟩
        simp [xDataReadersAt, xDataStep, XDataItem.read_double]
      | WorldSpacePosition p =>
        refine ⟨CodePair.new_f64 XDATA_WORLDSPACEPOSITION p.x,
          [CodePair.new_f64 XDATA_WORLDSPACEPOSITION p.y,
           CodePair.new_f64 XDATA_WORLDSPACEPOSITION p.z],
          rfl, by simp, by simp, by simp, ?_⟩
        simp [xDataReadersAt, xDataStep, XDataItem.read_double]
      | WorldSpaceDisplacement p =>
        refine ⟨CodePair.new_f64 XDATA_WORLDSPACEDISPLACEMENT p.x,
          [CodePair.new_f64 XDATA_WORLDSPACEDISPLACEMENT p.y,
           CodePair.new_f64 XDATA_WORLDSPACEDISPLACEMENT p.z],
          rfl, by simp, by simp, by simp, ?_⟩
        simp [xDataReadersAt, xDataStep, XDataItem.read_double]
      | WorldDirection v =>
        refine ⟨CodePair.new_f64 XDATA_WORLDDIRECTION v.x,
          [CodePair.new_f64 XDATA_WORLDDIRECTION v.y,
           CodePair.new_f64 XDATA_WORLDDIRECTION v.z],
          rfl, by simp, by simp, by simp, ?_⟩
        simp [xDataReadersAt, xDataStep, XDataItem.read_double]
      | Real fl =>
        refine ⟨CodePair.new_f64 XDATA_REAL fl, [], rfl, by simp, by simp, by simp, ?_⟩
        simp [xDataReadersAt, xDataStep]
      | Distance fl =>
        refine ⟨CodePair.new_f64 XDATA_DISTANCE fl, [], rfl, by simp, by simp, by simp, ?_⟩
        simp [xDataReadersAt, xDataStep]
      | ScaleFactor fl =>
        refine ⟨CodePair.new_f64 XDATA_SCALEFACTOR fl, [], rfl, by simp, by simp,
          by simp, ?_⟩
        simp [xDataReadersAt, xDataStep]
      | Integer i =>
        refine ⟨CodePair.new_i16 XDATA_INTEGER i, [], rfl, by simp, by simp, by simp, ?_⟩
        simp [xDataReadersAt, xDataStep]
      | Long i =>
        refine ⟨CodePair.new_i32 XDATA_LONG i, [], rfl, by simp, by simp, by simp, ?_⟩
        simp [xDataReadersAt, xDataStep]
    · intro items hp hsz rest
      cases items with
      | nil =>
        simp [XDataItem.write_list, xDataReadersAt, xDataStep]
      | cons i is =>
        have hpi : XDataItem.producible i = true := by
          have hb := hp
          simp only [XDataItem.producible_list, Bool.and_eq_true] at hb
          exact hb.1
        have hpis : XDataItem.producible_list is = true := by
          have hb := hp
          simp only [XDataItem.producible_list, Bool.and_eq_true] at hb
          exact hb.2
        have hszi : sizeOf i ≤ f := by
          have h1 := xdata_items_sizeOf_pos is
          simp only [List.cons.sizeOf_spec] at hsz
          omega
        have hszis : sizeOf is ≤ f := by
          have h1 := xdata_item_sizeOf_pos i
          simp only [List.cons.sizeOf_spec] at hsz
          omega
        obtain ⟨p, ps, hw, hlow, hne1001, hctrl, hread⟩ :=
          ih1 i hpi hszi
            (List.map Except.ok (XDataItem.write_list is) ++
              Except.ok (CodePair.new_str XDATA_CONTROLGROUP "\x7d") :: rest)
        have hgrp := ih2 is hpis hszis rest
        have hstream : List.map Except.ok (XDataItem.write_list (i :: is)) ++
            Except.ok (CodePair.new_str XDATA_CONTROLGROUP "\x7d") :: rest =
            Except.ok p :: (List.map Except.ok ps ++
              (List.map Except.ok (XDataItem.write_list is) ++
                Except.ok (CodePair.new_str XDATA_CONTROLGROUP "\x7d") :: rest)) := by
          rw [show XDataItem.write_list (i :: is) =
            XDataItem.write i ++ XDataItem.write_list is from rfl, hw]
          simp
        rw [hstream]
        show (xDataStep (xDataReadersAt f)).read_group_items _ = _
        simp only [xDataStep]
        rw [if_neg (by simp at hlow ⊢; omega : ¬p.code < XDATA_STRING)]
        by_cases hc : p.code = XDATA_CONTROLGROUP
        · rw [if_pos hc]
          simp only [hctrl hc]
          rw [if_neg (by decide : ¬("\x7b" : String) = "\x7d")]
          simp only [hread, hgrp]
        · rw [if_neg hc]
          simp only [hread, hgrp]

theorem xdata_read_items_write_list :
    ∀ (items : List XDataItem) (fuel : Nat),
      XDataItem.producible_list items = true → sizeOf items ≤ fuel →
      (xDataReadersAt fuel).read_items (List.map Except.ok (XDataItem.write_list items)) =
        some (Except.ok (items, [])) := by
  intro items
  induction items with
  | nil =>
    intro fuel _ hsz
    obtain ⟨f, rfl⟩ : ∃ f, fuel = f + 1 := by
      have := xdata_items_sizeOf_pos ([] : List XDataItem)
      exact ⟨fuel - 1, by omega⟩
    simp [XDataItem.write_list, xDataReadersAt, xDataStep]
  | cons i is ih =>
    intro fuel hp hsz
    obtain ⟨f, rfl⟩ : ∃ f, fuel = f + 1 := by
      have := xdata_items_sizeOf_pos (i :: is)
      exact ⟨fuel - 1, by omega⟩
    have hpi : XDataItem.producible i = true := by
      have hb := hp
      simp only [XDataItem.producible_list, Bool.and_eq_true] at hb
      exact hb.1
    have hpis : XDataItem.producible_list is = true := by
      have hb := hp
      simp only [XDataItem.producible_list, Bool.and_eq_true] at hb
      exact hb.2
    have hszi : sizeOf i ≤ f := by
      have h1 := xdata_items_sizeOf_pos is
      simp only [List.cons.sizeOf_spec] at hsz
      omega
    have hszis : sizeOf is ≤ f := by
      have h1 := xdata_item_sizeOf_pos i
      simp only [List.cons.sizeOf_spec] at hsz
      omega
    obtain ⟨p, ps, hw, hlow, hne1001, hctrl, hread⟩ :=
      (xdata_read_write f).1 i hpi hszi (List.map Except.ok (XDataItem.write_list is))
    have hitems := ih f hpis hszis
    have hstream : (List.map Except.ok (XDataItem.write_list (i :: is)) : PairStream) =
        Except.ok p :: (List.map Except.ok ps ++
          List.map Except.ok (XDataItem.write_list is)) := by
      rw [show XDataItem.write_list (i :: is) =
        XDataItem.write i ++ XDataItem.write_list is from rfl, hw]
      simp
    rw [hstream]
    show (xDataStep (xDataReadersAt f)).read_items _ = _
    simp only [xDataStep]
    rw [if_neg (by simp at hlow ⊢; omega : ¬p.code = 0)]
    rw [if_neg (by simp at hlow hne1001 ⊢; omega :
      ¬(p.code = XDATA_APPLICATIONNAME ∨ p.code < XDATA_STRING))]
    simp only [hread, hitems]

/-- C2: XDATA round trip.  For every XData value whose item sequence lies
in the reader-producible domain, writing with target version at least R2000
emits the 1001/application-name pair followed by the item pairs, and
reading that item pair stream back yields the same structure — nested
control groups, triples, binary data bytes and handle values included.
Fuel only bounds recursion depth; any amount at least sizeOf the items
works. -/
theorem xdata_write_read_roundtrip (version : AcadVersion) (xd : XData) (fuel : Nat)
    (hp : XDataItem.producible_list xd.items = true)
    (hv : AcadVersion.R2000.rank ≤ version.rank)
    (hf : sizeOf xd.items ≤ fuel) :
    XData.write version xd =
      CodePair.new_string XDATA_APPLICATIONNAME xd.application_name ::
        XDataItem.write_list xd.items ∧
    XData.read_item fuel xd.application_name
        (List.map Except.ok (XDataItem.write_list xd.items)) =
      some (Except.ok (xd, [])) := by
  constructor
  · unfold XData.write
    rw [if_pos hv]
  · unfold XData.read_item
    rw [xdata_read_items_write_list xd.items fuel hp hf]

theorem xdata_write_read_roundtrip_witness :
    XData.write AcadVersion.R2000
        (XData.mk "ACAD"
          [XDataItem.Str "note",
           XDataItem.ControlGroup [XDataItem.Integer 5, XDataItem.Handle 255],
           XDataItem.ThreeReals ⟨1, 1⟩ ⟨2, 0⟩ ⟨-3, 0⟩,
           XDataItem.BinaryData [0, 171, 255]]) =
      CodePair.new_string XDATA_APPLICATIONNAME "ACAD" ::
        XDataItem.write_list
          [XDataItem.Str "note",
           XDataItem.ControlGroup [XDataItem.Integer 5, XDataItem.Handle 255],
           XDataItem.ThreeReals ⟨1, 1⟩ ⟨2, 0⟩ ⟨-3, 0⟩,
           XDataItem.BinaryData [0, 171, 255]] ∧
    XData.read_item 100000 "ACAD"
        (List.map Except.ok (XDataItem.write_list
          [XDataItem.Str "note",
           XDataItem.ControlGroup [XDataItem.Integer 5, XDataItem.Handle 255],
           XDataItem.ThreeReals ⟨1, 1⟩ ⟨2, 0⟩ ⟨-3, 0⟩,
           XDataItem.BinaryData [0, 171, 255]])) =
      some (Except.ok (XData.mk "ACAD"
        [XDataItem.Str "note",
         XDataItem.ControlGroup [XDataItem.Integer 5, XDataItem.Handle 255],
         XDataItem.ThreeReals ⟨1, 1⟩ ⟨2, 0⟩ ⟨-3, 0⟩,
         XDataItem.BinaryData [0, 171, 255]], [])) :=
  xdata_write_read_roundtrip AcadVersion.R2000
    (XData.mk "ACAD"
      [XDataItem.Str "note",
       XDataItem.ControlGroup [XDataItem.Integer 5, XDataItem.Handle 255],
       XDataItem.ThreeReals ⟨1, 1⟩ ⟨2, 0⟩ ⟨-3, 0⟩,
       XDataItem.BinaryData [0, 171, 255]]) 100000
    (by rfl) (by decide) (by decide)
